import Mathlib

/-!
Verification of the hotel front-desk backend: booking lifecycle, customer
aggregate ledger and the archival batch job.

The JavaScript sources are shallowly embedded as executable Lean functions:
  - `models/Booking.js` hooks and path validators,
  - `models/Customer.js`, `models/CustomerSummary.js` as record types,
  - the bookings controller (`createBooking`, `updateBooking`, `deleteBooking`,
    `updateBookingStatus`),
  - the customers controller (`createCustomer`, `updateCustomer`,
    `deleteCustomer`),
  - the `archiveOldData` batch script,
  - the express-validator chains of `routes/bookings.js` / `routes/customers.js`.

Conventions: JS `Date` values are epoch milliseconds (`Int`); JS numbers that
the code treats as integers (rent, money totals, counters) are `Int`; Mongo
ObjectIds are drawn from a `nextId : Nat` counter in the database state;
fallible handlers return the unchanged-or-updated state together with an
`Except`-style result.  Schema fields never consulted by any property
(`paymentStatus`, document URLs, `createdBy`, `updatedAt`) are omitted, and
the additional-guest subdocument list is carried as its length, the only datum
the hooks read.
-/

namespace Hotel

/-- Milliseconds per day, the divisor in the booking amount hook. -/
def msPerDay : Int := 86400000

/-- JS `Math.ceil(a / d)` for integer `a` and positive integer `d`:
ceiling division, expressed with floor (Euclidean) division. -/
def ceilDiv (a d : Int) : Int := Int.ediv (a + d - 1) d

/-- Regex `/^[0-9]{10}$/` of the mobile validators. -/
def isMobileFormat (s : String) : Bool :=
  s.toList.length == 10 && s.toList.all Char.isDigit

/-- Regex `/^[0-9]{4}-[0-9]{4}-[0-9]{4}$/` of the aadhaar validators. -/
def isAadhaarFormat (s : String) : Bool :=
  match s.toList with
  | [a, b, c, d, '-', e, f, g, h, '-', i, j, k, l] =>
      [a, b, c, d, e, f, g, h, i, j, k, l].all Char.isDigit
  | _ => false

/-- Regex `/^[a-zA-Z\s]+$/` with the 2..100 length bound of the name
validators. -/
def isNameFormat (s : String) : Bool :=
  2 ≤ s.toList.length && s.toList.length ≤ 100 &&
  s.toList.all (fun c => c.isAlpha || c.isWhitespace)

/-- JS `String.prototype.trim()`: strip whitespace from both ends. -/
def strTrim (s : String) : String :=
  String.mk (((s.toList.dropWhile Char.isWhitespace).reverse.dropWhile
    Char.isWhitespace).reverse)

/-- `utils/helpers.js` `formatAadhaar`: strip non-digits; when exactly 12
digits remain, hyphenate as `XXXX-XXXX-XXXX`, else return the input. -/
def formatAadhaar (a : String) : String :=
  let cleaned := a.toList.filter Char.isDigit
  if cleaned.length == 12 then
    String.mk (cleaned.take 4) ++ "-" ++ String.mk ((cleaned.drop 4).take 4)
      ++ "-" ++ String.mk (cleaned.drop 8)
  else a

/-- One document of the `Booking` model (`models/Booking.js`). -/
structure Booking where
  id : Nat
  serialNo : String
  entryNo : String
  /-- optional `ObjectId` reference to a `Customer` document -/
  customer : Option Nat
  customerName : String
  customerMobile : String
  customerAadhaar : String
  /-- length of the `additionalGuests` array -/
  additionalGuests : Nat
  groupSize : Int
  room : String
  rent : Int
  checkIn : Int
  /-- `null` in the schema means still in-house -/
  checkOut : Option Int
  status : String
  totalAmount : Int
  notes : String
  documentPublicIds : List String
  createdAt : Int
deriving DecidableEq

/-- One document of the `Customer` model (`models/Customer.js`). -/
structure Customer where
  id : Nat
  name : String
  mobile : String
  aadhaar : String
  totalVisits : Int
  totalRevenue : Int
deriving DecidableEq

/-- One document of the `CustomerSummary` model
(`models/CustomerSummary.js`). -/
structure CustomerSummary where
  customerId : Nat
  name : String
  mobile : String
  aadhaar : String
  totalHistoricVisits : Int
  totalHistoricRevenue : Int
  firstVisit : Int
  lastArchivedVisit : Int
  archivedAt : Int
deriving DecidableEq

/-- The datastore plus the external asset store: the three Mongo collections,
the set of Cloudinary public ids currently stored remotely, and a fresh
ObjectId supply. -/
structure DB where
  bookings : List Booking
  customers : List Customer
  summaries : List CustomerSummary
  assets : List String
  nextId : Nat
deriving DecidableEq

def emptyDB : DB := ⟨[], [], [], [], 0⟩

/-- Failure outcomes surfaced by the handlers and the batch job. -/
inductive Err where
  /-- 400 `Validation failed` (express-validator or Mongoose validation) -/
  | validationFailed
  /-- 400 duplicate on a unique field (`entryNo` pre-check or E11000) -/
  | duplicateEntry (field : String)
  /-- 400 `Entry number is required` -/
  | entryRequired
  /-- 404 -/
  | notFound
deriving DecidableEq

/-! ## Booking model layer: hooks, validators, save -/

/-- `bookingSchema.pre('validate')`: reject `checkOut < checkIn` (the
`checkIn`/`checkOut` truthiness tests hold whenever the Date fields are set,
since Date objects are truthy). -/
def bookingPreValidateOk (b : Booking) : Bool :=
  match b.checkOut with
  | some co => !(co < b.checkIn)
  | none => true

/-- The schema path validators representable over the embedded fields:
required strings non-empty, `room` ≤ 10 chars, `rent ≥ 0`, the `status`
enum, `groupSize` in 1..20, `notes` ≤ 500 chars. -/
def bookingPathValid (b : Booking) : Bool :=
  b.serialNo != "" && b.entryNo != "" && b.customerName != "" &&
  b.customerMobile != "" && b.customerAadhaar != "" &&
  b.room.length ≤ 10 && 0 ≤ b.rent &&
  (b.status == "checked-in" || b.status == "checked-out" || b.status == "cancelled") &&
  1 ≤ b.groupSize && b.groupSize ≤ 20 && b.notes.length ≤ 500

/-- `bookingSchema.pre('save')`: recompute `groupSize`, and when `checkOut`
is non-null and `rent` is truthy (nonzero), set
`totalAmount = max(ceil((checkOut-checkIn)/86400000), 1) * rent`. -/
def bookingPreSave (b : Booking) : Booking :=
  match b.checkOut with
  | some co =>
      if b.rent != 0 then
        { b with groupSize := 1 + (b.additionalGuests : Int),
                 totalAmount := max (ceilDiv (co - b.checkIn) msPerDay) 1 * b.rent }
      else { b with groupSize := 1 + (b.additionalGuests : Int) }
  | none => { b with groupSize := 1 + (b.additionalGuests : Int) }

def entryNoTaken (db : DB) (e : String) : Bool :=
  db.bookings.any (fun b => b.entryNo == e)

def serialNoTaken (db : DB) (s : String) : Bool :=
  db.bookings.any (fun b => b.serialNo == s)

/-- `new Booking(data).save()`: pre-validate hook, path validation, pre-save
hook, then the unique-index checks (E11000) and the insert. -/
def saveNewBooking (db : DB) (b : Booking) : Except Err DB :=
  if !bookingPreValidateOk b then .error .validationFailed
  else if !bookingPathValid b then .error .validationFailed
  else if entryNoTaken db (bookingPreSave b).entryNo then
    .error (.duplicateEntry "entryNo")
  else if serialNoTaken db (bookingPreSave b).serialNo then
    .error (.duplicateEntry "serialNo")
  else .ok { db with bookings := db.bookings ++ [bookingPreSave b],
                     nextId := db.nextId + 1 }

/-- `booking.save()` on a fetched document: same pipeline, replacing the
stored document and checking uniqueness against the other documents. -/
def saveExistingBooking (db : DB) (b : Booking) : Except Err DB :=
  if !bookingPreValidateOk b then .error .validationFailed
  else if !bookingPathValid b then .error .validationFailed
  else
    if db.bookings.any (fun x =>
        x.id ≠ (bookingPreSave b).id && x.entryNo == (bookingPreSave b).entryNo) then
      .error (.duplicateEntry "entryNo")
    else if db.bookings.any (fun x =>
        x.id ≠ (bookingPreSave b).id && x.serialNo == (bookingPreSave b).serialNo) then
      .error (.duplicateEntry "serialNo")
    else .ok { db with bookings := (db.bookings.map
      (fun x => if x.id = (bookingPreSave b).id then bookingPreSave b else x)) }

/-! ## Route-level validation (`routes/bookings.js`, `routes/customers.js`) -/

/-- Request body of `POST /api/bookings` as destructured by `createBooking`
(bookings controller).  Optional JSON fields are `Option`; `groupSize` keeps
its request value because the controller reads it before the save hook
overwrites it. -/
structure BookingRequest where
  customerName : String
  customerMobile : String
  customerAadhaar : Option String
  entryNo : Option String
  rent : Int
  room : Option String
  checkIn : Int
  checkOut : Option Int
  status : Option String
  notes : String
  documentPublicIds : List String
  additionalGuests : Nat
  groupSize : Option Int

/-- `bookingValidation` of `routes/bookings.js`: name 2..100 letters/spaces,
10-digit mobile, optional aadhaar format, optional room 1..10 chars,
`rent ≥ 1`, optional `checkOut` strictly after `checkIn`, optional `status`
restricted to `checked-in`/`checked-out`. -/
def bookingValidationOk (r : BookingRequest) : Bool :=
  isNameFormat r.customerName && isMobileFormat r.customerMobile &&
  (match r.customerAadhaar with | none => true | some a => isAadhaarFormat a) &&
  (match r.room with | none => true | some rm => 1 ≤ rm.length && rm.length ≤ 10) &&
  1 ≤ r.rent &&
  (match r.checkOut with | none => true | some co => !(co ≤ r.checkIn)) &&
  (match r.status with | none => true | some s => s == "checked-in" || s == "checked-out")

/-- `statusValidation` of `routes/bookings.js` (PUT `/:id/status`): only
`checked-in` and `checked-out` pass.  The express-validator chain records
failures on the request; it rejects nothing by itself, and the
`updateBookingStatus` handler never reads `validationResult`, so this check
never gates the operation. -/
def statusValidationOk (s : String) : Bool :=
  s == "checked-in" || s == "checked-out"

/-- Request body of `POST /api/customers` as destructured by
`createCustomer` (customers controller).  `checkOut` is a required field of
`customerValidation`. -/
structure CustomerRequest where
  name : String
  mobile : String
  aadhaar : String
  room : Option String
  rent : Int
  checkIn : Int
  checkOut : Int
  notes : String

/-- `customerValidation` of `routes/customers.js`: name, mobile, mandatory
aadhaar format, optional room, `rent ≥ 1`, mandatory `checkOut` strictly
after `checkIn`. -/
def customerValidationOk (r : CustomerRequest) : Bool :=
  isNameFormat r.name && isMobileFormat r.mobile && isAadhaarFormat r.aadhaar &&
  (match r.room with | none => true | some rm => 1 ≤ rm.length && rm.length ≤ 10) &&
  1 ≤ r.rent && !(r.checkOut ≤ r.checkIn)

/-! ## Bookings controller -/

/-- The `bookingData` object assembled by `createBooking`: embedded customer
data from the request, no `customer` reference, `room || 'TBD'`, the status
destructuring default, and `totalAmount` left for the save hook. -/
def bookingFromRequest (serialNo : String) (now : Int) (req : BookingRequest)
    (bid : Nat) (entry : String) : Booking :=
  { id := bid
    serialNo := serialNo
    entryNo := entry
    customer := none
    customerName := req.customerName
    customerMobile := req.customerMobile
    customerAadhaar := req.customerAadhaar.getD ""
    additionalGuests := req.additionalGuests
    groupSize :=
      match req.groupSize with
      | some g => if g ≠ 0 then g else 1 + (req.additionalGuests : Int)
      | none => 1 + (req.additionalGuests : Int)
    room := match req.room with
            | some rm => if rm ≠ "" then rm else "TBD"
            | none => "TBD"
    rent := req.rent
    checkIn := req.checkIn
    checkOut := req.checkOut
    status := req.status.getD "checked-in"
    totalAmount := 0
    notes := req.notes
    documentPublicIds := req.documentPublicIds
    createdAt := now }

/-- `createBooking` (bookings controller): check `validationResult`, require
a non-empty trimmed `entryNo`, pre-check its uniqueness, then build the
booking with embedded customer data (no `customer` reference) and save it.
`serialNo` is the freshly generated value, supplied here as an argument. -/
def createBooking (serialNo : String) (now : Int) (req : BookingRequest)
    (db : DB) : DB × Except Err Unit :=
  if !bookingValidationOk req then (db, .error .validationFailed)
  else
    match req.entryNo with
    | none => (db, .error .entryRequired)
    | some e =>
      let t := strTrim e
      if t == "" then (db, .error .entryRequired)
      else if entryNoTaken db t then (db, .error (.duplicateEntry "entryNo"))
      else
        match saveNewBooking db (bookingFromRequest serialNo now req db.nextId t) with
        | .error err => (db, .error err)
        | .ok db1 => (db1, .ok ())

/-- Partial update body of `PUT /api/bookings/:id`: the handler copies every
defined body field onto the document, so each carried field is `Option`. -/
structure BookingUpdate where
  customerName : Option String := none
  customerMobile : Option String := none
  customerAadhaar : Option String := none
  rent : Option Int := none
  room : Option String := none
  checkIn : Option Int := none
  checkOut : Option Int := none
  status : Option String := none
  notes : Option String := none

def applyBookingUpdate (b : Booking) (u : BookingUpdate) : Booking :=
  { b with
    customerName := u.customerName.getD b.customerName
    customerMobile := u.customerMobile.getD b.customerMobile
    customerAadhaar := u.customerAadhaar.getD b.customerAadhaar
    rent := u.rent.getD b.rent
    room := u.room.getD b.room
    checkIn := u.checkIn.getD b.checkIn
    checkOut := match u.checkOut with | some co => some co | none => b.checkOut
    status := u.status.getD b.status
    notes := u.notes.getD b.notes }

/-- `updateBooking` (bookings controller): fetch, merge the defined body
fields, `save()` (hooks and validators run, so `totalAmount` is
recomputed when `checkOut` and `rent` are truthy). -/
def updateBooking (bid : Nat) (u : BookingUpdate) (db : DB) :
    DB × Except Err Unit :=
  match db.bookings.find? (fun b => b.id = bid) with
  | none => (db, .error .notFound)
  | some b =>
      match saveExistingBooking db (applyBookingUpdate b u) with
      | .error err => (db, .error err)
      | .ok db1 => (db1, .ok ())

/-- `deleteBooking` (bookings controller): fetch, best-effort delete the
Cloudinary assets (`deleteImages` resolves with a success flag and never
throws; per-id failures are modelled by the `remoteFails` oracle and simply
leave that asset in the remote store), then delete the booking.  The guest
ledger is not touched on this path. -/
def deleteBooking (remoteFails : String → Bool) (bid : Nat) (db : DB) :
    DB × Except Err Unit :=
  match db.bookings.find? (fun b => b.id = bid) with
  | none => (db, .error .notFound)
  | some b =>
      let db1 := { db with
        assets := db.assets.filter
          (fun a => !(b.documentPublicIds.contains a && !remoteFails a)) }
      ({ db1 with bookings := db1.bookings.filter (fun x => x.id ≠ bid) }, .ok ())

/-- `updateBookingStatus` (bookings controller): fetch, assign the request's
`status` verbatim — `validationResult` is never consulted, so the route's
`statusValidation` does not restrict it — and `save()`, where only the
schema enum applies. -/
def updateBookingStatus (bid : Nat) (status : String) (db : DB) :
    DB × Except Err Unit :=
  match db.bookings.find? (fun b => b.id = bid) with
  | none => (db, .error .notFound)
  | some b =>
      match saveExistingBooking db { b with status := status } with
      | .error err => (db, .error err)
      | .ok db1 => (db1, .ok ())

/-! ## Customers controller -/

/-- The fresh `Customer.create` document of `createCustomer`:
`totalVisits = 1`, `totalRevenue = rent`. -/
def customerFromRequest (req : CustomerRequest) (cid : Nat) : Customer :=
  { id := cid, name := req.name, mobile := req.mobile,
    aadhaar := formatAadhaar req.aadhaar,
    totalVisits := 1, totalRevenue := req.rent }

/-- The booking document assembled by `createCustomer`: its denormalized
guest fields come from the stored customer document `c`. -/
def bookingFromCustomer (serialNo entryNo : String) (now : Int)
    (req : CustomerRequest) (c : Customer) (bid : Nat) : Booking :=
  { id := bid, serialNo := serialNo, entryNo := entryNo
    customer := some c.id
    customerName := c.name, customerMobile := c.mobile
    customerAadhaar := c.aadhaar
    additionalGuests := 0, groupSize := 1
    room := req.room.getD "TBD"
    rent := req.rent, checkIn := req.checkIn, checkOut := some req.checkOut
    status := "checked-in", totalAmount := 0, notes := req.notes
    documentPublicIds := [], createdAt := now }

/-- `createCustomer` (customers controller): after `validationResult`, format
the aadhaar, look the guest up by mobile OR formatted aadhaar; create it with
`totalVisits = 1, totalRevenue = rent`, or increment the existing one by
`1` / `rent` and save; then create the booking carrying the *stored*
customer's denormalized fields (`customer.name`, `customer.mobile`,
`customer.aadhaar`) and a reference to it.  The ledger write precedes the
booking save, so a failing booking save leaves the incremented ledger behind.
`serialNo`/`entryNo` are the freshly generated values, supplied as
arguments. -/
def createCustomer (serialNo entryNo : String) (now : Int)
    (req : CustomerRequest) (db : DB) : DB × Except Err Unit :=
  if !customerValidationOk req then (db, .error .validationFailed)
  else
    let fa := formatAadhaar req.aadhaar
    match db.customers.find? (fun c => c.mobile == req.mobile || c.aadhaar == fa) with
    | none =>
        let c := customerFromRequest req db.nextId
        let db1 := { db with customers := db.customers ++ [c], nextId := db.nextId + 1 }
        match saveNewBooking db1 (bookingFromCustomer serialNo entryNo now req c db1.nextId) with
        | .error err => (db1, .error err)
        | .ok db2 => (db2, .ok ())
    | some c =>
        let c1 := { c with totalVisits := c.totalVisits + 1
                           totalRevenue := c.totalRevenue + req.rent }
        let db1 := { db with
          customers := db.customers.map (fun x => if x.id = c.id then c1 else x) }
        match saveNewBooking db1 (bookingFromCustomer serialNo entryNo now req c db1.nextId) with
        | .error err => (db1, .error err)
        | .ok db2 => (db2, .ok ())

/-- Update body of `PUT /api/customers/:id`.  The handler guards each field
with JS truthiness (`if (name) ...`), except `notes` which is guarded with
`!== undefined`; truthiness for the embedded types means present and
non-empty / nonzero. -/
structure CustomerUpdate where
  name : Option String := none
  mobile : Option String := none
  aadhaar : Option String := none
  room : Option String := none
  rent : Option Int := none
  checkIn : Option Int := none
  checkOut : Option Int := none
  status : Option String := none
  notes : Option String := none

def strTruthy : Option String → Bool
  | some s => s != ""
  | none => false

def intTruthy : Option Int → Bool
  | some n => n ≠ 0
  | none => false

/-- The `updateData` object built by `updateCustomer`, applied to the stored
booking.  This models `findByIdAndUpdate`: a direct field write with *no*
document middleware, so neither the `pre('validate')` date hook nor the
`pre('save')` `totalAmount`/`groupSize` recomputation runs. -/
def applyCustomerUpdate (b : Booking) (u : CustomerUpdate) : Booking :=
  { b with
    customerName := if strTruthy u.name then u.name.getD "" else b.customerName
    customerMobile := if strTruthy u.mobile then u.mobile.getD "" else b.customerMobile
    customerAadhaar := if strTruthy u.aadhaar then formatAadhaar (u.aadhaar.getD "")
                       else b.customerAadhaar
    room := if strTruthy u.room then u.room.getD "" else b.room
    rent := if intTruthy u.rent then u.rent.getD 0 else b.rent
    checkIn := if intTruthy u.checkIn then u.checkIn.getD 0 else b.checkIn
    checkOut := if intTruthy u.checkOut then u.checkOut else b.checkOut
    status := if strTruthy u.status then u.status.getD "" else b.status
    notes := match u.notes with | some n => n | none => b.notes }

/-- `runValidators: true` of `findByIdAndUpdate`: path validators run on the
updated paths only (no document hooks). -/
def customerUpdateValidatorsOk (u : CustomerUpdate) : Bool :=
  (if strTruthy u.status then
      let s := u.status.getD ""
      s == "checked-in" || s == "checked-out" || s == "cancelled"
    else true) &&
  (if intTruthy u.rent then 0 ≤ u.rent.getD 0 else true) &&
  (if strTruthy u.room then (u.room.getD "").length ≤ 10 else true) &&
  (match u.notes with | some n => n.length ≤ 500 | none => true)

/-- `updateCustomer` (customers controller): fetch the booking, write the
truthy body fields through `findByIdAndUpdate` (update validators only —
`totalAmount` is *not* recomputed), then propagate name/mobile/aadhaar onto
the referenced `Customer` document when any of them was supplied. -/
def updateCustomer (bid : Nat) (u : CustomerUpdate) (db : DB) :
    DB × Except Err Unit :=
  match db.bookings.find? (fun b => b.id = bid) with
  | none => (db, .error .notFound)
  | some b =>
      if !customerUpdateValidatorsOk u then (db, .error .validationFailed)
      else
        let b1 := applyCustomerUpdate b u
        let db1 := { db with
          bookings := db.bookings.map (fun x => if x.id = bid then b1 else x) }
        let db2 :=
          if strTruthy u.name || strTruthy u.mobile || strTruthy u.aadhaar then
            match b.customer.bind (fun cid => db1.customers.find? (fun c => c.id = cid)) with
            | none => db1
            | some c =>
                let c1 := { c with
                  name := if strTruthy u.name then u.name.getD "" else c.name
                  mobile := if strTruthy u.mobile then u.mobile.getD "" else c.mobile
                  aadhaar := if strTruthy u.aadhaar then formatAadhaar (u.aadhaar.getD "")
                             else c.aadhaar }
                { db1 with
                  customers := db1.customers.map (fun x => if x.id = c.id then c1 else x) }
          else db1
        (db2, .ok ())

/-- `deleteCustomer` (customers controller): fetch the booking, reverse its
contribution to the referenced `Customer` (`totalVisits -= 1`,
`totalRevenue -= rent`, each floored at 0 by `Math.max`), delete the
customer when its visits reach 0, then delete the booking.  No asset
cleanup happens on this path. -/
def deleteCustomer (bid : Nat) (db : DB) : DB × Except Err Unit :=
  match db.bookings.find? (fun b => b.id = bid) with
  | none => (db, .error .notFound)
  | some b =>
      let db1 : DB :=
        match b.customer.bind (fun cid => db.customers.find? (fun c => c.id = cid)) with
        | none => db
        | some c =>
            let c1 := { c with totalVisits := max 0 (c.totalVisits - 1),
                               totalRevenue := max 0 (c.totalRevenue - b.rent) }
            if c1.totalVisits = 0 then
              { db with customers := db.customers.filter (fun x => x.id ≠ c.id) }
            else
              { db with customers := db.customers.map (fun x => if x.id = c.id then c1 else x) }
      ({ db1 with bookings := db1.bookings.filter (fun x => x.id ≠ bid) }, .ok ())

/-! ## Archival batch job (`archiveOldData` script) -/

/-- `booking.populate('customer')`: resolve the optional reference in the
customers collection. -/
def resolveCustomer (db : DB) (b : Booking) : Option Customer :=
  b.customer.bind (fun i => db.customers.find? (fun c => c.id = i))

/-- Sum of an integer-valued booking field, as computed by the script's
`reduce((sum, b) => sum + f(b), 0)` (addition is associative and commutative,
so the list sum is that fold). -/
def sumBy (f : Booking → Int) (l : List Booking) : Int := (l.map f).sum

/-- `bookings.reduce((sum, b) => sum + b.totalAmount, 0)`. -/
def sumAmt : List Booking → Int := sumBy (fun b => b.totalAmount)

/-- The running rent total credited to a guest: the sum of `rent` over a
list of bookings. -/
def sumRent : List Booking → Int := sumBy (fun b => b.rent)

/-- `bookings.reduce((earliest, b) => b.createdAt < earliest ? ... ,
bookings[0].createdAt)`. -/
def firstVisitOf (grp : List Booking) : Int :=
  grp.foldl (fun e b => if b.createdAt < e then b.createdAt else e)
    ((grp.head?.map (fun b => b.createdAt)).getD 0)

/-- `bookings.reduce((latest, b) => b.createdAt > latest ? ... ,
bookings[0].createdAt)`. -/
def lastVisitOf (grp : List Booking) : Int :=
  grp.foldl (fun e b => if e < b.createdAt then b.createdAt else e)
    ((grp.head?.map (fun b => b.createdAt)).getD 0)

/-- The keys of the `customerBookings` object: each referenced customer id,
in first-occurrence order, once. -/
def firstDedup : List Nat → List Nat
  | [] => []
  | k :: rest => k :: (firstDedup rest).filter (fun x => x ≠ k)

/-- The bookings the run selects: `createdAt` strictly older than the
horizon. -/
def archivedOf (db : DB) (cutoff : Int) : List Booking :=
  db.bookings.filter (fun b => b.createdAt < cutoff)

/-- One customer's group of selected bookings. -/
def groupOf (old : List Booking) (k : Nat) : List Booking :=
  old.filter (fun b => b.customer = some k)

def custLookup (db : DB) (k : Nat) : Option Customer :=
  db.customers.find? (fun c => c.id = k)

def sumLookup (db : DB) (k : Nat) : Option CustomerSummary :=
  db.summaries.find? (fun s => s.customerId = k)

/-- The summary document written for one group: merged into the existing
summary (adding visits and `totalAmount` revenue, min of `firstVisit`, the
group's latest as `lastArchivedVisit`) or freshly created from the
populated customer. -/
def mergedSummary (now : Int) (cid : Nat) (c : Customer) (grp : List Booking)
    (s? : Option CustomerSummary) : CustomerSummary :=
  let n : Int := grp.length
  let amt := sumAmt grp
  let fv := firstVisitOf grp
  let lv := lastVisitOf grp
  match s? with
  | some s =>
      { s with
        totalHistoricVisits := s.totalHistoricVisits + n,
        totalHistoricRevenue := s.totalHistoricRevenue + amt,
        firstVisit := if fv < s.firstVisit then fv else s.firstVisit,
        lastArchivedVisit := lv,
        archivedAt := now }
  | none =>
      { customerId := cid, name := c.name, mobile := c.mobile,
        aadhaar := c.aadhaar, totalHistoricVisits := n,
        totalHistoricRevenue := amt, firstVisit := fv,
        lastArchivedVisit := lv, archivedAt := now }

/-- The customer document written for one group: the floored subtraction of
the group's visit count and `totalAmount` sum. -/
def subtractedCustomer (c : Customer) (grp : List Booking) : Customer :=
  { c with totalVisits := max 0 (c.totalVisits - (grp.length : Int)),
           totalRevenue := max 0 (c.totalRevenue - sumAmt grp) }

/-- One iteration of the script's per-customer loop, acting on the state
`db`: merge into or create the customer's summary, then overwrite the
customer document with the floored subtraction.  The customer object is the
one populated at selection time, read from the pre-run state `db0`. -/
def archiveGroup (db0 : DB) (now : Int) (old : List Booking) (db : DB)
    (cid : Nat) : DB :=
  match custLookup db0 cid with
  | none => db
  | some c =>
      let grp := groupOf old cid
      let s1 := mergedSummary now cid c grp (sumLookup db cid)
      let summaries1 :=
        match sumLookup db cid with
        | some _ => db.summaries.map (fun x => if x.customerId = cid then s1 else x)
        | none => db.summaries ++ [s1]
      { db with summaries := summaries1,
                customers := db.customers.map
                  (fun x => if x.id = cid then subtractedCustomer c grp else x) }

/-- The script's per-customer loop over the grouped keys. -/
def processGroups (db0 : DB) (now : Int) (old : List Booking)
    (keys : List Nat) (db : DB) : DB :=
  keys.foldl (archiveGroup db0 now old) db

/-- Outcome of an `archiveOldData` run.  The script catches every throw, so
a run always terminates; the constructors record through which branch. -/
inductive ArchiveResult where
  /-- `No old bookings found to archive`: early return before any write -/
  | noOld
  /-- the grouping loop read `._id` of a `null` populated customer -/
  | typeError
  /-- the sweep step read the unbound name `Customer` and threw
      `ReferenceError` after the merges, subtractions and deletion -/
  | referenceError
deriving DecidableEq

/-- The `archiveOldData` script: select bookings older than the horizon
(early return when none), group them by populated customer (a `null`
customer crashes the grouping before any write), per group merge the
summary and subtract from the live customer, `deleteMany` the selected
bookings — and then crash in the sweep step, whose `Customer.find` refers
to a name the module never imports, leaving every customer document in
place. -/
def archiveOldData (cutoff now : Int) (db : DB) : DB × ArchiveResult :=
  let old := archivedOf db cutoff
  if old.isEmpty then (db, .noOld)
  else if old.any (fun b => (resolveCustomer db b).isNone) then (db, .typeError)
  else
    let keys := firstDedup (old.filterMap (fun b => b.customer))
    let db1 := processGroups db now old keys db
    let db2 := { db1 with
      bookings := db1.bookings.filter (fun b => !(b.createdAt < cutoff)) }
    (db2, .referenceError)

/-! ## Ledger view and well-formedness -/

/-- The live bookings referencing a guest. -/
def bookingsOf (db : DB) (k : Nat) : List Booking :=
  db.bookings.filter (fun b => b.customer = some k)

/-- `customerSummary?.totalHistoricVisits || 0` (customer analytics). -/
def histVisits (db : DB) (k : Nat) : Int :=
  match sumLookup db k with
  | some s => s.totalHistoricVisits
  | none => 0

/-- `customerSummary?.totalHistoricRevenue || 0` (customer analytics). -/
def histRevenue (db : DB) (k : Nat) : Int :=
  match sumLookup db k with
  | some s => s.totalHistoricRevenue
  | none => 0

/-- `FullTotals` visits: `customer.totalVisits + (summary?.totalHistoricVisits
|| 0)` as computed by `searchCustomer`/`getCustomerHistory`. -/
def fullVisits (db : DB) (c : Customer) : Int := c.totalVisits + histVisits db c.id

/-- `FullTotals` revenue: `customer.totalRevenue +
(summary?.totalHistoricRevenue || 0)`. -/
def fullRevenue (db : DB) (c : Customer) : Int := c.totalRevenue + histRevenue db c.id

/-- Uniqueness and freshness facts the datastore maintains for the program:
unique-index constraints (distinct ObjectIds, serial numbers, entry numbers,
distinct summary owners), the ObjectId supply being ahead of every allocated
id, and the schema's `rent ≥ 0` bound on persisted bookings. -/
def WF (db : DB) : Prop :=
  (db.customers.map (fun c => c.id)).Nodup ∧
  (db.summaries.map (fun s => s.customerId)).Nodup ∧
  (db.bookings.map (fun b => b.id)).Nodup ∧
  (db.bookings.map (fun b => b.entryNo)).Nodup ∧
  (db.bookings.map (fun b => b.serialNo)).Nodup ∧
  (∀ c ∈ db.customers, c.id < db.nextId) ∧
  (∀ b ∈ db.bookings, b.id < db.nextId) ∧
  (∀ b ∈ db.bookings, ∀ k, b.customer = some k → k < db.nextId) ∧
  (∀ b ∈ db.bookings, 0 ≤ b.rent)

/-- The aggregate-ledger consistency view: every guest document's running
totals agree with the live bookings referencing it. -/
def ledgerOK (db : DB) : Prop :=
  ∀ c ∈ db.customers,
    c.totalVisits = ((bookingsOf db c.id).length : Int) ∧
    c.totalRevenue = sumRent (bookingsOf db c.id)

/-! ## Guest-facing operation traces (create / delete via the customers
endpoints) -/

/-- One guest-ledger-touching operation: `POST /api/customers` (create a
guest-and-booking, with the freshly generated serial and entry numbers as
data) or `DELETE /api/customers/:id`. -/
inductive GuestOp where
  | create (serialNo entryNo : String) (now : Int) (req : CustomerRequest)
  | delete (bid : Nat)

def applyGuestOp (db : DB) (op : GuestOp) : DB × Except Err Unit :=
  match op with
  | .create s e n r => createCustomer s e n r db
  | .delete bid => deleteCustomer bid db

def runTrace (db : DB) (ops : List GuestOp) : DB :=
  ops.foldl (fun d op => (applyGuestOp d op).1) db

/-- Every operation of the trace succeeds from the given state. -/
def traceOK (db : DB) : List GuestOp → Bool
  | [] => true
  | op :: rest =>
      match applyGuestOp db op with
      | (db1, .ok _) => traceOK db1 rest
      | (_, .error _) => false

deriving instance DecidableEq for Except

instance (db : DB) : Decidable (ledgerOK db) := by unfold ledgerOK; infer_instance

instance (db : DB) : Decidable (WF db) := by unfold WF; infer_instance

/-! ## Concrete fixtures used by witnesses and counterexamples -/

/-- A valid guest-and-booking request: 2-day stay at rent 100
(`totalAmount` 200). -/
def exGuestReqA : CustomerRequest :=
  { name := "John Doe", mobile := "9876543210", aadhaar := "1234-5678-9012",
    room := none, rent := 100, checkIn := 0, checkOut := 172800000, notes := "" }

/-- A second request for the same guest: 3-day stay at rent 50
(`totalAmount` 150). -/
def exGuestReqB : CustomerRequest :=
  { exGuestReqA with rent := 50, checkOut := 259200000 }

/-- State after creating the first guest booking at time 0. -/
def exDbA : DB := (createCustomer "S1" "E1" 0 exGuestReqA emptyDB).1

/-- State after a second booking for the same guest at time 99: one guest
with `totalVisits = 2`, `totalRevenue = 150`. -/
def exDbAB : DB := (createCustomer "S2" "E2" 99 exGuestReqB exDbA).1

/-- A booking-create request for a same-day stay
(`checkOut = checkIn = 0`). -/
def exSameDayReq : BookingRequest :=
  { customerName := "John Doe", customerMobile := "9876543210",
    customerAadhaar := some "1234-5678-9012", entryNo := some "E9",
    rent := 2500, room := none, checkIn := 0, checkOut := some 0,
    status := none, notes := "", documentPublicIds := [],
    additionalGuests := 0, groupSize := none }

/-- The same request with a 5-day stay, which is valid. -/
def exFiveDayReq : BookingRequest := { exSameDayReq with checkOut := some 432000000 }

/-- State after creating the 5-day booking. -/
def exDbBook : DB := (createBooking "S9" 0 exFiveDayReq emptyDB).1

/-- A second create request whose entry number trims to the same `E9`. -/
def exDupReq : BookingRequest := { exFiveDayReq with entryNo := some " E9 " }

/-- A persisted 5-day booking at rent 2500 with the hook-computed
`totalAmount = 12500`. -/
def exStaleBooking : Booking :=
  { id := 1, serialNo := "S1", entryNo := "E1", customer := none,
    customerName := "John Doe", customerMobile := "9876543210",
    customerAadhaar := "1234-5678-9012", additionalGuests := 0, groupSize := 1,
    room := "201", rent := 2500, checkIn := 0, checkOut := some 432000000,
    status := "checked-in", totalAmount := 12500, notes := "",
    documentPublicIds := [], createdAt := 0 }

def exStaleDB : DB :=
  { bookings := [exStaleBooking], customers := [], summaries := [],
    assets := [], nextId := 2 }

/-- `PUT /api/customers/:id` body moving `checkOut` to one day after
check-in. -/
def exStaleUpd : CustomerUpdate := { checkOut := some 86400000 }

/-- A guest with two recorded visits worth 200. -/
def exCust : Customer :=
  { id := 0, name := "John Doe", mobile := "9876543210",
    aadhaar := "1234-5678-9012", totalVisits := 2, totalRevenue := 200 }

/-- A booking owned by `exCust` with one uploaded document. -/
def exAssetBooking : Booking :=
  { exStaleBooking with id := 3, customer := some 0, documentPublicIds := ["p1"] }

def exAssetDB : DB :=
  { bookings := [exAssetBooking], customers := [exCust], summaries := [],
    assets := ["p1", "q"], nextId := 4 }

/-- Two creations for the same guest followed by deleting the first
booking. -/
def exTrace : List GuestOp :=
  [.create "S1" "E1" 0 exGuestReqA, .create "S2" "E2" 1 exGuestReqB, .delete 1]

/-- A repeat-stay request for the same guest submitting a different name. -/
def exReqAltName : CustomerRequest := { exGuestReqB with name := "Alice Smith" }

/-- A 1-day booking at rent 100 (`totalAmount` 100) recorded at time 0 and
owned by guest 0. -/
def exArcBooking : Booking :=
  { exStaleBooking with id := 1, customer := some 0, rent := 100, totalAmount := 100, checkOut := some 86400000, createdAt := 0 }

/-- The owning guest: one visit worth 100, so archiving the booking's
`totalAmount` of 100 does not clamp. -/
def exArcCust : Customer := { exCust with totalVisits := 1, totalRevenue := 100 }

/-- A store holding exactly that guest and booking, ready for an archive
run with horizon 1. -/
def exArcDB : DB :=
  { bookings := [exArcBooking], customers := [exArcCust], summaries := [],
    assets := [], nextId := 4 }

/-! # Theorems -/

/-- C3 (code_bug evidence): `PUT /api/customers/:id` moves `checkOut` from
day 5 to day 1 on a rent-2500 booking, succeeds, persists the new
`checkOut`, yet leaves `totalAmount` at the stale 12500 although the
documented formula `max(ceil((checkOut-checkIn)/1day),1) * rent` yields
2500 — `findByIdAndUpdate` bypasses the `pre('save')` recomputation hook. -/
theorem updateCustomer_leaves_stale_totalAmount :
    (updateCustomer 1 exStaleUpd exStaleDB).2 = .ok () ∧
    (updateCustomer 1 exStaleUpd exStaleDB).1.bookings.map
      (fun b => (b.checkOut, b.totalAmount)) = [(some 86400000, 12500)] ∧
    max (ceilDiv (86400000 - 0) msPerDay) 1 * 2500 = 2500 := by
  refine ⟨by decide, by decide, by decide⟩

/-- C5 (counterexample): a same-day booking-create request
(`checkOut = checkIn`) is rejected with `ValidationFailed` by the route's
validation chain (`checkOut` must be strictly after `checkIn`) and nothing
is persisted — contradicting the claim that same-day stays succeed. -/
theorem sameDay_create_rejected :
    createBooking "S9" 0 exSameDayReq emptyDB = (emptyDB, .error .validationFailed) := by
  decide

/-- C7 (counterexample): deleting booking 3 through `DELETE
/api/bookings/:id` deletes the booking and its remote assets but leaves its
guest's ledger (`totalVisits = 2`, `totalRevenue = 200`) untouched — so no
single delete operation both reverses the ledger and cleans up assets. -/
theorem deleteBooking_does_not_reverse_ledger :
    (deleteBooking (fun _ => false) 3 exAssetDB).2 = .ok () ∧
    (deleteBooking (fun _ => false) 3 exAssetDB).1.bookings = [] ∧
    (deleteBooking (fun _ => false) 3 exAssetDB).1.customers = [exCust] ∧
    (deleteBooking (fun _ => false) 3 exAssetDB).1.assets = ["q"] := by
  refine ⟨by decide, by decide, by decide, by decide⟩

/-- C1 (counterexample): guest with bookings (rent 100, amount 200) and
(rent 50, amount 150), live ledger `(visits 2, revenue 150)`.  Archiving the
first booking clamps the live revenue to `max 0 (150 - 200) = 0` and
credits 200 to the historic summary, so FullTotals revenue becomes 200 —
neither the rent-sum 150 nor the amount-sum 350 over the surviving (live
plus archived, none deleted) bookings.  The visits half survives:
FullTotals visits stays 2. -/
theorem archive_breaks_full_revenue :
    sumRent exDbAB.bookings = 150 ∧ sumAmt exDbAB.bookings = 350 ∧
    (archiveOldData 1 1000 exDbAB).1.customers.map
      (fun c => fullRevenue (archiveOldData 1 1000 exDbAB).1 c) = [200] ∧
    (archiveOldData 1 1000 exDbAB).1.customers.map
      (fun c => fullVisits (archiveOldData 1 1000 exDbAB).1 c) = [2] ∧
    ((200 : Int) ≠ 150 ∧ (200 : Int) ≠ 350) := by
  refine ⟨by decide, by decide, by decide, by decide, by decide, by decide⟩

/-! ## Helper lemmas: the pre-save hook only rewrites `groupSize` and
`totalAmount` -/

theorem bookingPreSave_id (b : Booking) : (bookingPreSave b).id = b.id := by
  unfold bookingPreSave; split <;> (try split) <;> rfl

theorem bookingPreSave_customer (b : Booking) :
    (bookingPreSave b).customer = b.customer := by
  unfold bookingPreSave; split <;> (try split) <;> rfl

theorem bookingPreSave_rent (b : Booking) : (bookingPreSave b).rent = b.rent := by
  unfold bookingPreSave; split <;> (try split) <;> rfl

theorem bookingPreSave_entryNo (b : Booking) :
    (bookingPreSave b).entryNo = b.entryNo := by
  unfold bookingPreSave; split <;> (try split) <;> rfl

theorem bookingPreSave_serialNo (b : Booking) :
    (bookingPreSave b).serialNo = b.serialNo := by
  unfold bookingPreSave; split <;> (try split) <;> rfl

theorem bookingPreSave_createdAt (b : Booking) :
    (bookingPreSave b).createdAt = b.createdAt := by
  unfold bookingPreSave; split <;> (try split) <;> rfl

theorem bookingPreSave_status (b : Booking) :
    (bookingPreSave b).status = b.status := by
  unfold bookingPreSave; split <;> (try split) <;> rfl

theorem bookingPreSave_checkOut (b : Booking) :
    (bookingPreSave b).checkOut = b.checkOut := by
  unfold bookingPreSave; split <;> (try split) <;> rfl

theorem bookingPreSave_checkIn (b : Booking) :
    (bookingPreSave b).checkIn = b.checkIn := by
  unfold bookingPreSave; split <;> (try split) <;> rfl

theorem bookingPreSave_customerName (b : Booking) :
    (bookingPreSave b).customerName = b.customerName := by
  unfold bookingPreSave; split <;> (try split) <;> rfl

theorem bookingPreSave_customerMobile (b : Booking) :
    (bookingPreSave b).customerMobile = b.customerMobile := by
  unfold bookingPreSave; split <;> (try split) <;> rfl

theorem bookingPreSave_customerAadhaar (b : Booking) :
    (bookingPreSave b).customerAadhaar = b.customerAadhaar := by
  unfold bookingPreSave; split <;> (try split) <;> rfl

/-! ## Helper lemmas: lookups in id-keyed document lists -/

section FindToolbox

variable {α : Type} (f : α → Nat)

theorem find_mem_nodup (l : List α) (hnd : (l.map f).Nodup) (a : α) (ha : a ∈ l) :
    l.find? (fun x => f x = f a) = some a := by
  induction l with
  | nil => cases ha
  | cons h t ih =>
      simp only [List.map_cons, List.nodup_cons] at hnd
      rcases List.mem_cons.mp ha with rfl | hmem
      · exact List.find?_cons_of_pos _ (by simp)
      · have hne : ¬ f h = f a := fun he => hnd.1 (he ▸ List.mem_map_of_mem f hmem)
        rw [List.find?_cons_of_neg _ (by simpa using hne)]
        exact ih hnd.2 hmem

theorem find_map_ite_ne (l : List α) (k : Nat) (y : α) (hy : f y = k) (j : Nat)
    (hj : ¬ j = k) :
    (l.map (fun x => if f x = k then y else x)).find? (fun x => f x = j) =
    l.find? (fun x => f x = j) := by
  induction l with
  | nil => rfl
  | cons h t ih =>
      by_cases hk : f h = k
      · have h1 : ¬ f (if f h = k then y else h) = j := by
          rw [if_pos hk, hy]; exact fun he => hj he.symm
        have h2 : ¬ f h = j := by rw [hk]; exact fun he => hj he.symm
        simp only [List.map_cons]
        rw [List.find?_cons_of_neg _ (by simpa using h1),
            List.find?_cons_of_neg _ (by simpa using h2)]
        exact ih
      · simp only [List.map_cons, if_neg hk]
        by_cases hja : f h = j
        · rw [List.find?_cons_of_pos _ (by simpa using hja),
              List.find?_cons_of_pos _ (by simpa using hja)]
        · rw [List.find?_cons_of_neg _ (by simpa using hja),
              List.find?_cons_of_neg _ (by simpa using hja)]
          exact ih

theorem find_map_ite_self (l : List α) (k : Nat) (y : α) (hy : f y = k)
    (h : (l.find? (fun x => f x = k)).isSome) :
    (l.map (fun x => if f x = k then y else x)).find? (fun x => f x = k) = some y := by
  induction l with
  | nil => simp [List.find?] at h
  | cons a t ih =>
      by_cases hk : f a = k
      · simp only [List.map_cons, if_pos hk]
        exact List.find?_cons_of_pos _ (by simpa using hy)
      · simp only [List.map_cons, if_neg hk]
        rw [List.find?_cons_of_neg _ (by simpa using hk)]
        rw [List.find?_cons_of_neg _ (by simpa using hk)] at h
        exact ih h

theorem map_ids_ite (l : List α) (k : Nat) (y : α) (hy : f y = k) :
    (l.map (fun x => if f x = k then y else x)).map f = l.map f := by
  induction l with
  | nil => rfl
  | cons a t ih =>
      by_cases hk : f a = k
      · simp only [List.map_cons, if_pos hk, ih]
        rw [hy, hk]
      · simp only [List.map_cons, if_neg hk, ih]

theorem find_append_single (l : List α) (y : α) (j : Nat) :
    (l ++ [y]).find? (fun x => f x = j) =
    (match l.find? (fun x => f x = j) with
     | some a => some a
     | none => if f y = j then some y else none) := by
  induction l with
  | nil =>
      simp only [List.nil_append]
      by_cases hj : f y = j
      · rw [List.find?_cons_of_pos _ (by simpa using hj)]; simp [List.find?, hj]
      · rw [List.find?_cons_of_neg _ (by simpa using hj)]; simp [List.find?, hj]
  | cons a t ih =>
      by_cases hja : f a = j
      · simp only [List.cons_append]
        rw [List.find?_cons_of_pos _ (by simpa using hja),
            List.find?_cons_of_pos _ (by simpa using hja)]
      · simp only [List.cons_append]
        rw [List.find?_cons_of_neg _ (by simpa using hja),
            List.find?_cons_of_neg _ (by simpa using hja)]
        exact ih

theorem find_isSome_of_mem (l : List α) (a : α) (ha : a ∈ l) :
    (l.find? (fun x => f x = f a)).isSome = true := by
  induction l with
  | nil => cases ha
  | cons h t ih =>
      by_cases hh : f h = f a
      · rw [List.find?_cons_of_pos _ (by simpa using hh)]; rfl
      · rw [List.find?_cons_of_neg _ (by simpa using hh)]
        rcases List.mem_cons.mp ha with rfl | hm
        · exact absurd rfl hh
        · exact ih hm

theorem find_isSome_congr (l l' : List α) (hids : l.map f = l'.map f) (k : Nat) :
    (l.find? (fun x => f x = k)).isSome = (l'.find? (fun x => f x = k)).isSome := by
  induction l generalizing l' with
  | nil => cases l' with
    | nil => rfl
    | cons b t' => simp at hids
  | cons a t ih =>
      cases l' with
      | nil => simp at hids
      | cons b t' =>
          simp only [List.map_cons, List.cons.injEq] at hids
          by_cases hk : f a = k
          · rw [List.find?_cons_of_pos _ (by simpa using hk),
                List.find?_cons_of_pos _ (by simpa [← hids.1] using hk)]
            rfl
          · rw [List.find?_cons_of_neg _ (by simpa using hk),
                List.find?_cons_of_neg _ (by simpa [← hids.1] using hk)]
            exact ih t' hids.2

end FindToolbox

/-! ## Helper lemmas: counting and summing over booking lists -/

theorem sumBy_nil (g : Booking → Int) : sumBy g [] = 0 := rfl

theorem sumBy_cons (g : Booking → Int) (b : Booking) (l : List Booking) :
    sumBy g (b :: l) = g b + sumBy g l := by
  simp [sumBy]

theorem sumBy_append (g : Booking → Int) (l₁ l₂ : List Booking) :
    sumBy g (l₁ ++ l₂) = sumBy g l₁ + sumBy g l₂ := by
  simp [sumBy]

theorem sumBy_nonneg (g : Booking → Int) (l : List Booking)
    (h : ∀ x ∈ l, 0 ≤ g x) : 0 ≤ sumBy g l := by
  induction l with
  | nil => simp [sumBy]
  | cons a t ih =>
      rw [sumBy_cons]
      have := h a (List.mem_cons_self a t)
      have := ih (fun x hx => h x (List.mem_cons_of_mem a hx))
      omega

theorem length_filter_split (l : List Booking) (p q : Booking → Bool) :
    (l.filter p).length =
    (l.filter (fun x => p x && q x)).length +
    (l.filter (fun x => p x && !q x)).length := by
  induction l with
  | nil => rfl
  | cons a t ih =>
      cases hp : p a <;> cases hq : q a <;>
        simp [List.filter_cons, hp, hq, ih] <;> omega

theorem sumBy_filter_split (g : Booking → Int) (l : List Booking)
    (p q : Booking → Bool) :
    sumBy g (l.filter p) =
    sumBy g (l.filter (fun x => p x && q x)) +
    sumBy g (l.filter (fun x => p x && !q x)) := by
  induction l with
  | nil => rfl
  | cons a t ih =>
      cases hp : p a <;> cases hq : q a <;>
        simp [List.filter_cons, hp, hq, sumBy_cons, ih] <;> omega

theorem length_filter_remove (l : List Booking)
    (hnd : (l.map (fun b => b.id)).Nodup) (b : Booking) (hb : b ∈ l)
    (p : Booking → Bool) :
    (l.filter p).length =
    ((l.filter (fun x => x.id ≠ b.id)).filter p).length +
    (if p b then 1 else 0) := by
  induction l with
  | nil => cases hb
  | cons a t ih =>
      simp only [List.map_cons, List.nodup_cons] at hnd
      rcases List.mem_cons.mp hb with rfl | hmem
      · have hall : ∀ x ∈ t, ¬ x.id = b.id :=
          fun x hx he => hnd.1 (he ▸ List.mem_map_of_mem _ hx)
        have hinner : List.filter (fun x => decide (x.id ≠ b.id)) (b :: t) = t := by
          rw [List.filter_cons]; simpa using hall
        rw [hinner]
        cases hp : p b <;> simp [List.filter_cons, hp]
      · have hane : a.id ≠ b.id := fun he => hnd.1 (he ▸ List.mem_map_of_mem _ hmem)
        have hinner : List.filter (fun x => decide (x.id ≠ b.id)) (a :: t) =
            a :: List.filter (fun x => decide (x.id ≠ b.id)) t := by
          rw [List.filter_cons]; simp [hane]
        rw [hinner]
        cases hp : p a <;>
          simp [List.filter_cons, hp, ih hnd.2 hmem] <;> omega

theorem sumBy_filter_remove (g : Booking → Int) (l : List Booking)
    (hnd : (l.map (fun b => b.id)).Nodup) (b : Booking) (hb : b ∈ l)
    (p : Booking → Bool) :
    sumBy g (l.filter p) =
    sumBy g ((l.filter (fun x => x.id ≠ b.id)).filter p) +
    (if p b then g b else 0) := by
  induction l with
  | nil => cases hb
  | cons a t ih =>
      simp only [List.map_cons, List.nodup_cons] at hnd
      rcases List.mem_cons.mp hb with rfl | hmem
      · have hall : ∀ x ∈ t, ¬ x.id = b.id :=
          fun x hx he => hnd.1 (he ▸ List.mem_map_of_mem _ hx)
        have hinner : List.filter (fun x => decide (x.id ≠ b.id)) (b :: t) = t := by
          rw [List.filter_cons]; simpa using hall
        rw [hinner]
        cases hp : p b <;> simp [List.filter_cons, hp, sumBy_cons] <;> omega
      · have hane : a.id ≠ b.id := fun he => hnd.1 (he ▸ List.mem_map_of_mem _ hmem)
        have hinner : List.filter (fun x => decide (x.id ≠ b.id)) (a :: t) =
            a :: List.filter (fun x => decide (x.id ≠ b.id)) t := by
          rw [List.filter_cons]; simp [hane]
        rw [hinner]
        cases hp : p a <;>
          simp [List.filter_cons, hp, sumBy_cons, ih hnd.2 hmem] <;> omega

/-! ## Helper lemmas: save pipeline inversion -/

theorem saveNewBooking_ok (db db' : DB) (b : Booking)
    (h : saveNewBooking db b = .ok db') :
    db' = { db with bookings := db.bookings ++ [bookingPreSave b],
                    nextId := db.nextId + 1 } ∧
    bookingPreValidateOk b = true ∧ bookingPathValid b = true ∧
    entryNoTaken db b.entryNo = false ∧ serialNoTaken db b.serialNo = false := by
  unfold saveNewBooking at h
  split at h
  · simp at h
  · split at h
    · simp at h
    · split at h
      · simp at h
      · split at h
        · simp at h
        · rename_i h1 h2 h3 h4
          rw [bookingPreSave_entryNo] at h3
          rw [bookingPreSave_serialNo] at h4
          injection h with h5
          exact ⟨h5.symm, by simpa using h1, by simpa using h2,
            by simpa using h3, by simpa using h4⟩

theorem saveExistingBooking_ok (db db' : DB) (b : Booking)
    (h : saveExistingBooking db b = .ok db') :
    db' = { db with bookings :=
              (db.bookings.map (fun x => if x.id = b.id then bookingPreSave b else x)) } ∧
    bookingPreValidateOk b = true ∧ bookingPathValid b = true := by
  unfold saveExistingBooking at h
  split at h
  · simp at h
  · split at h
    · simp at h
    · split at h
      · simp at h
      · split at h
        · simp at h
        · rename_i h1 h2 h3 h4
          injection h with h5
          refine ⟨?_, by simpa using h1, by simpa using h2⟩
          rw [← h5]
          simp [bookingPreSave_id]

/-- Inversion of a successful `POST /api/bookings`. -/
theorem createBooking_ok_spec (sn : String) (now : Int) (r : BookingRequest)
    (db : DB) (hok : (createBooking sn now r db).2 = .ok ()) :
    bookingValidationOk r = true ∧
    ∃ e, r.entryNo = some e ∧ (strTrim e == "") = false ∧
      entryNoTaken db (strTrim e) = false ∧
      ∃ bnew, (createBooking sn now r db).1.bookings = db.bookings ++ [bnew] ∧
        bnew.entryNo = strTrim e := by
  by_cases hv : bookingValidationOk r
  · rcases hr : r.entryNo with _ | e
    · simp [createBooking, hv, hr] at hok
    · by_cases ht : (strTrim e == "") = true
      · simp [createBooking, hv, hr, ht] at hok
      · by_cases htk : entryNoTaken db (strTrim e)
        · simp [createBooking, hv, hr, ht, htk] at hok
        · rcases hs : saveNewBooking db (bookingFromRequest sn now r db.nextId (strTrim e))
              with herr | db1
          · simp [createBooking, hv, hr, ht, htk, hs] at hok
          · have hcb : createBooking sn now r db = (db1, .ok ()) := by
              simp [createBooking, hv, hr, ht, htk, hs]
            obtain ⟨hdb1, -, -, -, -⟩ := saveNewBooking_ok _ _ _ hs
            refine ⟨hv, ⟨e, rfl, by simpa using ht, by simpa using htk,
              ⟨bookingPreSave (bookingFromRequest sn now r db.nextId (strTrim e)), ?_,
               by rw [bookingPreSave_entryNo]; rfl⟩⟩⟩
            rw [hcb, hdb1]
  · simp [createBooking, hv] at hok

theorem map_eq_self_of_skip {α : Type} (f : α → Nat) (k : Nat) (y : α)
    (t : List α) (h : ∀ x ∈ t, ¬ f x = k) :
    t.map (fun x => if f x = k then y else x) = t := by
  induction t with
  | nil => rfl
  | cons a s ih =>
      simp only [List.map_cons]
      rw [if_neg (h a (List.mem_cons_self a s)),
          ih (fun x hx => h x (List.mem_cons_of_mem _ hx))]

theorem map_ite_other_field {α : Type} (f : α → Nat) (g : α → String)
    (l : List α) (hnd : (l.map f).Nodup) (c : α) (hc : c ∈ l) (y : α)
    (hy : g y = g c) :
    (l.map (fun x => if f x = f c then y else x)).map g = l.map g := by
  induction l with
  | nil => rfl
  | cons a t ih =>
      simp only [List.map_cons, List.nodup_cons] at hnd ⊢
      rcases List.mem_cons.mp hc with rfl | hmem
      · rw [if_pos rfl, hy,
          map_eq_self_of_skip f (f c) y t
            (fun x hx he => hnd.1 (he ▸ List.mem_map_of_mem f hx))]
      · have hne : ¬ f a = f c :=
          fun he => hnd.1 (he ▸ List.mem_map_of_mem f hmem)
        rw [if_neg hne, ih hnd.2 hmem]

/-- Inversion of a successful `POST /api/customers` whose guest lookup
found an existing customer. -/
theorem createCustomer_found_spec (sn en : String) (now : Int)
    (req : CustomerRequest) (db : DB) (c : Customer)
    (hv : customerValidationOk req = true)
    (hfind : db.customers.find?
      (fun x => x.mobile == req.mobile || x.aadhaar == formatAadhaar req.aadhaar) = some c)
    (hok : (createCustomer sn en now req db).2 = .ok ()) :
    (createCustomer sn en now req db).1 =
      { db with
        customers := (db.customers.map (fun x => if x.id = c.id then
          { c with totalVisits := c.totalVisits + 1,
                   totalRevenue := c.totalRevenue + req.rent } else x)),
        bookings := db.bookings ++
          [bookingPreSave (bookingFromCustomer sn en now req c db.nextId)],
        nextId := db.nextId + 1 } ∧
    entryNoTaken db en = false ∧ serialNoTaken db sn = false ∧
    bookingPathValid (bookingFromCustomer sn en now req c db.nextId) = true := by
  rcases hs : saveNewBooking
      { db with customers := (db.customers.map (fun x => if x.id = c.id then
          { c with totalVisits := c.totalVisits + 1,
                   totalRevenue := c.totalRevenue + req.rent } else x)) }
      (bookingFromCustomer sn en now req c db.nextId) with herr | db2
  · exfalso
    simp [createCustomer, hv, hfind, hs] at hok
  · have hcc : createCustomer sn en now req db = (db2, .ok ()) := by
      simp [createCustomer, hv, hfind, hs]
    obtain ⟨hdb2, -, hpath, hen, hsn⟩ := saveNewBooking_ok _ _ _ hs
    refine ⟨?_, by simpa [entryNoTaken] using hen,
      by simpa [serialNoTaken] using hsn, hpath⟩
    rw [hcc, hdb2]

/-- Inversion of a successful `POST /api/customers` whose guest lookup
found nothing: a fresh customer document is created first. -/
theorem createCustomer_new_spec (sn en : String) (now : Int)
    (req : CustomerRequest) (db : DB)
    (hv : customerValidationOk req = true)
    (hfind : db.customers.find?
      (fun x => x.mobile == req.mobile || x.aadhaar == formatAadhaar req.aadhaar) = none)
    (hok : (createCustomer sn en now req db).2 = .ok ()) :
    (createCustomer sn en now req db).1 =
      { db with
        customers := db.customers ++ [customerFromRequest req db.nextId],
        bookings := db.bookings ++
          [bookingPreSave (bookingFromCustomer sn en now req
            (customerFromRequest req db.nextId) (db.nextId + 1))],
        nextId := db.nextId + 2 } ∧
    entryNoTaken db en = false ∧ serialNoTaken db sn = false ∧
    bookingPathValid (bookingFromCustomer sn en now req
      (customerFromRequest req db.nextId) (db.nextId + 1)) = true := by
  rcases hs : saveNewBooking
      { db with customers := db.customers ++ [customerFromRequest req db.nextId],
                nextId := db.nextId + 1 }
      (bookingFromCustomer sn en now req
        (customerFromRequest req db.nextId) (db.nextId + 1)) with herr | db2
  · exfalso
    simp [createCustomer, hv, hfind, hs] at hok
  · have hcc : createCustomer sn en now req db = (db2, .ok ()) := by
      simp [createCustomer, hv, hfind, hs]
    obtain ⟨hdb2, -, hpath, hen, hsn⟩ := saveNewBooking_ok _ _ _ hs
    refine ⟨?_, by simpa [entryNoTaken] using hen,
      by simpa [serialNoTaken] using hsn, hpath⟩
    rw [hcc, hdb2]

/-- C5 (amended): a booking-create request whose `checkOut` is at or before
`checkIn` — including the same-day case — always fails with
`ValidationFailed` and persists nothing, on both create endpoints; the
model-level amount hook *would* bill a same-day stay as one day
(`totalAmount = rent`), but no exposed create operation reaches it with
`checkOut = checkIn`. -/
theorem create_rejects_nonpositive_stay (db : DB) (sn : String) (now : Int)
    (req : BookingRequest) (co : Int) (h1 : req.checkOut = some co)
    (h2 : co ≤ req.checkIn) :
    createBooking sn now req db = (db, .error .validationFailed) ∧
    (∀ (db2 : DB) (s e : String) (n2 : Int) (r : CustomerRequest),
      r.checkOut ≤ r.checkIn →
      createCustomer s e n2 r db2 = (db2, .error .validationFailed)) ∧
    (∀ b : Booking, b.checkOut = some b.checkIn → b.rent ≠ 0 →
      (bookingPreSave b).totalAmount = b.rent) := by
  refine ⟨?_, ?_, ?_⟩
  · have hv : bookingValidationOk req = false := by
      unfold bookingValidationOk
      rw [h1]
      simp [h2]
    simp [createBooking, hv]
  · intro db2 s e n2 r hco
    have hv : customerValidationOk r = false := by
      unfold customerValidationOk
      simp [hco]
    simp [createCustomer, hv]
  · intro b hco hrent
    have hd : ceilDiv 0 msPerDay = 0 := by decide
    unfold bookingPreSave
    rw [hco]
    simp only [bne_iff_ne, ne_eq, hrent, not_false_eq_true, if_true, sub_self, hd]
    simp

/-- C5 witness: the rejection branch of the amended theorem applied to the
concrete same-day request. -/
theorem create_rejects_nonpositive_stay_witness :
    createBooking "S9" 0 exSameDayReq emptyDB = (emptyDB, .error .validationFailed) :=
  (create_rejects_nonpositive_stay emptyDB "S9" 0 exSameDayReq 0 (by decide)
    (by decide)).1

/-- C6: two booking-create requests carrying entry numbers that trim to the
same string: when the first succeeds, replaying any valid request with that
entry number against the resulting state fails with `DuplicateEntry` on the
`entryNo` field and returns the state of the first creation unchanged. -/
theorem duplicate_entry_rejected (db : DB) (sn1 sn2 : String) (t1 t2 : Int)
    (r1 r2 : BookingRequest) (e1 e2 : String)
    (he1 : r1.entryNo = some e1) (he2 : r2.entryNo = some e2)
    (heq : strTrim e2 = strTrim e1)
    (hok : (createBooking sn1 t1 r1 db).2 = .ok ())
    (hval2 : bookingValidationOk r2 = true) :
    createBooking sn2 t2 r2 (createBooking sn1 t1 r1 db).1 =
      ((createBooking sn1 t1 r1 db).1, .error (.duplicateEntry "entryNo")) := by
  obtain ⟨-, e, he, hne, -, bnew, hbooks, hentry⟩ := createBooking_ok_spec sn1 t1 r1 db hok
  rw [he1] at he
  injection he with he
  subst he
  set db1 := (createBooking sn1 t1 r1 db).1 with hdb1def
  have htaken : entryNoTaken db1 (strTrim e2) = true := by
    unfold entryNoTaken
    rw [hbooks, heq]
    have hb : bnew.entryNo == strTrim e1 := by simp [hentry]
    simp [List.any_append, hb]
  have hne2 : (strTrim e2 == "") = false := by rw [heq]; exact hne
  simp [createBooking, hval2, he2, hne2, htaken]

/-- C10: when a create-customer-and-booking request matches an existing
Guest Identity (by mobile or national id), the persisted booking's
denormalized guest fields are copied from the stored record, and no
customer document's name changes — the submitted name is discarded. -/
theorem createCustomer_uses_stored_identity (db : DB) (sn en : String)
    (now : Int) (req : CustomerRequest) (c : Customer)
    (hnd : (db.customers.map (fun x => x.id)).Nodup)
    (hfind : db.customers.find?
      (fun x => x.mobile == req.mobile || x.aadhaar == formatAadhaar req.aadhaar) = some c)
    (hok : (createCustomer sn en now req db).2 = .ok ()) :
    (∃ bnew, (createCustomer sn en now req db).1.bookings = db.bookings ++ [bnew] ∧
      bnew.customerName = c.name ∧ bnew.customerMobile = c.mobile ∧
      bnew.customerAadhaar = c.aadhaar ∧ bnew.customer = some c.id) ∧
    (createCustomer sn en now req db).1.customers.map (fun x => x.name) =
      db.customers.map (fun x => x.name) := by
  by_cases hv : customerValidationOk req
  · obtain ⟨hstate, -, -, -⟩ := createCustomer_found_spec sn en now req db c hv hfind hok
    constructor
    · refine ⟨bookingPreSave (bookingFromCustomer sn en now req c db.nextId),
        by rw [hstate], ?_, ?_, ?_, ?_⟩
      · rw [bookingPreSave_customerName]; rfl
      · rw [bookingPreSave_customerMobile]; rfl
      · rw [bookingPreSave_customerAadhaar]; rfl
      · rw [bookingPreSave_customer]; rfl
    · rw [hstate]
      refine map_ite_other_field (fun x => x.id) (fun x => x.name) db.customers hnd c
        (List.mem_of_find?_eq_some hfind) _ ?_
      rfl
  · simp [createCustomer, hv] at hok

/-- C6 witness: the amended duplicate-entry statement at the concrete pair
of requests whose entry numbers trim to `E9`. -/
theorem duplicate_entry_rejected_witness :
    createBooking "S10" 0 exDupReq (createBooking "S9" 0 exFiveDayReq emptyDB).1 =
      ((createBooking "S9" 0 exFiveDayReq emptyDB).1,
        .error (.duplicateEntry "entryNo")) :=
  duplicate_entry_rejected emptyDB "S9" "S10" 0 0 exFiveDayReq exDupReq
    "E9" " E9 " (by decide) (by decide) (by decide) (by decide) (by decide)

/-- C10 witness: a repeat stay submitted under the name `Alice Smith` for
the stored guest `John Doe` leaves every persisted name as stored. -/
theorem createCustomer_uses_stored_identity_witness :
    (createCustomer "S2" "E2" 5 exReqAltName exDbA).1.customers.map
      (fun x => x.name) = exDbA.customers.map (fun x => x.name) :=
  (createCustomer_uses_stored_identity exDbA "S2" "E2" 5 exReqAltName
    (customerFromRequest exGuestReqA 0) (by decide) (by decide) (by decide)).2

/-- C7 (amended): the two exposed delete operations split the
responsibilities the claim assigns to a single `Delete(id)`.
`DELETE /api/bookings/:id` best-effort deletes the booking's remote assets
(per-asset remote failures leave the asset behind but never block) and
deletes the booking, leaving customers and summaries untouched;
`DELETE /api/customers/:id` reverses the guest ledger with the floors,
deletes the Guest Identity when its visits reach zero, and deletes the
booking, leaving the asset store untouched. -/
theorem delete_paths_split_responsibilities :
    (∀ (remoteFails : String → Bool) (bid : Nat) (db : DB) (b : Booking),
      db.bookings.find? (fun x => x.id = bid) = some b →
      deleteBooking remoteFails bid db =
        ({ db with
            assets := db.assets.filter
              (fun a => !(b.documentPublicIds.contains a && !remoteFails a)),
            bookings := db.bookings.filter (fun x => x.id ≠ bid) }, .ok ())) ∧
    (∀ (bid : Nat) (db : DB) (b : Booking) (c : Customer),
      db.bookings.find? (fun x => x.id = bid) = some b →
      b.customer = some c.id →
      custLookup db c.id = some c →
      deleteCustomer bid db =
        ({ db with
            customers :=
              (if max 0 (c.totalVisits - 1) = 0 then
                db.customers.filter (fun x => x.id ≠ c.id)
              else
                (db.customers.map (fun x => if x.id = c.id then
                  { c with totalVisits := max 0 (c.totalVisits - 1),
                           totalRevenue := max 0 (c.totalRevenue - b.rent) } else x))),
            bookings := db.bookings.filter (fun x => x.id ≠ bid) }, .ok ())) := by
  constructor
  · intro remoteFails bid db b hfind
    simp [deleteBooking, hfind]
  · intro bid db b c hfind hbc hcl
    unfold custLookup at hcl
    simp only [deleteCustomer, hfind, hbc, Option.some_bind, hcl]
    split <;> rename_i hz <;> simp [hz] <;> try omega

/-- C7 witness: the ledger-reversing path applied to the concrete state:
deleting booking 3 through the customers endpoint floors the guest to
`(1, 0)` and leaves the asset store untouched. -/
theorem delete_paths_split_responsibilities_witness :
    (deleteCustomer 3 exAssetDB).1.assets = ["p1", "q"] ∧
    (deleteCustomer 3 exAssetDB).1.customers.map
      (fun c => (c.totalVisits, c.totalRevenue)) = [(1, 0)] := by
  have h := delete_paths_split_responsibilities.2 3 exAssetDB exAssetBooking
    exCust (by decide) (by decide) (by decide)
  rw [h]
  exact ⟨by decide, by decide⟩

/-- Forward evaluation of a succeeding `booking.save()` on a fetched
document. -/
theorem saveExistingBooking_eq_ok (db : DB) (b : Booking)
    (h1 : bookingPreValidateOk b = true) (h2 : bookingPathValid b = true)
    (h3 : db.bookings.any (fun x =>
      x.id ≠ (bookingPreSave b).id && x.entryNo == (bookingPreSave b).entryNo) = false)
    (h4 : db.bookings.any (fun x =>
      x.id ≠ (bookingPreSave b).id && x.serialNo == (bookingPreSave b).serialNo) = false) :
    saveExistingBooking db b = .ok { db with bookings := (db.bookings.map
      (fun x => if x.id = (bookingPreSave b).id then bookingPreSave b else x)) } := by
  unfold saveExistingBooking
  rw [h1, h2, h3, h4]
  simp

/-- C8: for every persisted booking and every status drawn from the schema
enum — `checked-in`, `checked-out`, and also `cancelled`, which the route's
`statusValidation` chain flags but the handler never checks — the status
update succeeds and stores the requested status verbatim; no transition
ordering is consulted. -/
theorem updateBookingStatus_accepts_any_enum (db : DB) (bid : Nat)
    (b : Booking) (s : String)
    (hfind : db.bookings.find? (fun x => x.id = bid) = some b)
    (henum : s = "checked-in" ∨ s = "checked-out" ∨ s = "cancelled")
    (hpre : bookingPreValidateOk b = true)
    (hpath : bookingPathValid { b with status := s } = true)
    (hen : ∀ x ∈ db.bookings, x.id ≠ b.id → ¬ x.entryNo = b.entryNo)
    (hsn : ∀ x ∈ db.bookings, x.id ≠ b.id → ¬ x.serialNo = b.serialNo) :
    (updateBookingStatus bid s db).2 = .ok () ∧
    (updateBookingStatus bid s db).1.bookings =
      (db.bookings.map (fun x => if x.id = b.id then
        bookingPreSave { b with status := s } else x)) ∧
    (bookingPreSave { b with status := s }).status = s ∧
    statusValidationOk "cancelled" = false := by
  have hpre' : bookingPreValidateOk { b with status := s } = true := hpre
  have h3 : db.bookings.any (fun x =>
      x.id ≠ (bookingPreSave { b with status := s }).id &&
      x.entryNo == (bookingPreSave { b with status := s }).entryNo) = false := by
    rw [List.any_eq_false]
    intro x hx
    rw [bookingPreSave_id, bookingPreSave_entryNo]
    simp only [Bool.and_eq_true, ne_eq, decide_eq_true_eq, beq_iff_eq, not_and]
    exact fun hid => hen x hx hid
  have h4 : db.bookings.any (fun x =>
      x.id ≠ (bookingPreSave { b with status := s }).id &&
      x.serialNo == (bookingPreSave { b with status := s }).serialNo) = false := by
    rw [List.any_eq_false]
    intro x hx
    rw [bookingPreSave_id, bookingPreSave_serialNo]
    simp only [Bool.and_eq_true, ne_eq, decide_eq_true_eq, beq_iff_eq, not_and]
    exact fun hid => hsn x hx hid
  have hsave := saveExistingBooking_eq_ok db { b with status := s } hpre' hpath h3 h4
  refine ⟨?_, ?_, ?_, by decide⟩
  · simp [updateBookingStatus, hfind, hsave]
  · simp [updateBookingStatus, hfind, hsave, bookingPreSave_id]
  · rw [bookingPreSave_status]

/-- C8 witness: `cancelled` — the value the route chain excludes — is
accepted and stored on the concrete persisted booking. -/
theorem updateBookingStatus_accepts_any_enum_witness :
    (updateBookingStatus 1 "cancelled" exStaleDB).2 = .ok () :=
  (updateBookingStatus_accepts_any_enum exStaleDB 1 exStaleBooking "cancelled"
    (by decide) (.inr (.inr rfl)) (by decide) (by decide) (by decide) (by decide)).1

/-! ## Helper lemmas for the ledger-invariant proof -/

theorem nodup_append_one {β : Type} (l : List β) (x : β) (h1 : l.Nodup)
    (h2 : x ∉ l) : (l ++ [x]).Nodup := by
  simp [List.nodup_append, h1, h2]

theorem eq_of_mem_nodup_id {α : Type} (f : α → Nat) (l : List α)
    (hnd : (l.map f).Nodup) (a b : α) (ha : a ∈ l) (hb : b ∈ l)
    (hid : f a = f b) : a = b := by
  induction l with
  | nil => cases ha
  | cons h t ih =>
      simp only [List.map_cons, List.nodup_cons] at hnd
      rcases List.mem_cons.mp ha with rfl | hat
      · rcases List.mem_cons.mp hb with rfl | hbt
        · rfl
        · exact absurd (hid ▸ List.mem_map_of_mem f hbt) hnd.1
      · rcases List.mem_cons.mp hb with rfl | hbt
        · exact absurd (hid ▸ List.mem_map_of_mem f hat) hnd.1
        · exact ih hnd.2 hat hbt

theorem sumBy_ge_of_mem (g : Booking → Int) (l : List Booking) (b : Booking)
    (hb : b ∈ l) (h : ∀ x ∈ l, 0 ≤ g x) : g b ≤ sumBy g l := by
  induction l with
  | nil => cases hb
  | cons a t ih =>
      rw [sumBy_cons]
      rcases List.mem_cons.mp hb with rfl | hmem
      · have := sumBy_nonneg g t (fun x hx => h x (List.mem_cons_of_mem _ hx))
        omega
      · have h1 := h a (List.mem_cons_self a t)
        have h2 := ih hmem (fun x hx => h x (List.mem_cons_of_mem _ hx))
        omega

theorem entryNoTaken_false_not_mem (db : DB) (e : String)
    (h : entryNoTaken db e = false) : e ∉ db.bookings.map (fun b => b.entryNo) := by
  unfold entryNoTaken at h
  rw [List.any_eq_false] at h
  intro hmem
  obtain ⟨b, hb, hbe⟩ := List.mem_map.mp hmem
  exact absurd (by simp [hbe]) (h b hb)

theorem serialNoTaken_false_not_mem (db : DB) (s : String)
    (h : serialNoTaken db s = false) : s ∉ db.bookings.map (fun b => b.serialNo) := by
  unfold serialNoTaken at h
  rw [List.any_eq_false] at h
  intro hmem
  obtain ⟨b, hb, hbs⟩ := List.mem_map.mp hmem
  exact absurd (by simp [hbs]) (h b hb)

theorem customerValidationOk_rent (r : CustomerRequest)
    (h : customerValidationOk r = true) : 1 ≤ r.rent := by
  unfold customerValidationOk at h
  simp only [Bool.and_eq_true, decide_eq_true_eq] at h
  exact h.1.2

theorem nodup_map_filter {α : Type} (f : α → String) (l : List α)
    (p : α → Bool) (h : (l.map f).Nodup) : ((l.filter p).map f).Nodup :=
  List.Nodup.sublist (List.Sublist.map f (List.filter_sublist l)) h

theorem nodup_map_filter_nat {α : Type} (f : α → Nat) (l : List α)
    (p : α → Bool) (h : (l.map f).Nodup) : ((l.filter p).map f).Nodup :=
  List.Nodup.sublist (List.Sublist.map f (List.filter_sublist l)) h

theorem createCustomer_found_preserves (sn en : String) (now : Int)
    (req : CustomerRequest) (db : DB) (c : Customer)
    (hwf : WF db) (hled : ledgerOK db)
    (hv : customerValidationOk req = true)
    (hfind : db.customers.find?
      (fun x => x.mobile == req.mobile || x.aadhaar == formatAadhaar req.aadhaar) = some c)
    (hok : (createCustomer sn en now req db).2 = .ok ()) :
    WF (createCustomer sn en now req db).1 ∧
    ledgerOK (createCustomer sn en now req db).1 := by
  obtain ⟨hstate, henf, hsnf, -⟩ := createCustomer_found_spec sn en now req db c hv hfind hok
  obtain ⟨hcids, hsids, hbids, hbe, hbs, hcf, hbf, hrf, hrn⟩ := hwf
  have hcmem : c ∈ db.customers := List.mem_of_find?_eq_some hfind
  have hcidlt : c.id < db.nextId := hcf c hcmem
  set bk := bookingPreSave (bookingFromCustomer sn en now req c db.nextId) with hbk
  set c1 : Customer := { c with totalVisits := c.totalVisits + 1,
                                totalRevenue := c.totalRevenue + req.rent } with hc1
  have hbkid : bk.id = db.nextId := by rw [hbk, bookingPreSave_id]; rfl
  have hbkcust : bk.customer = some c.id := by rw [hbk, bookingPreSave_customer]; rfl
  have hbkrent : bk.rent = req.rent := by rw [hbk, bookingPreSave_rent]; rfl
  have hbken : bk.entryNo = en := by rw [hbk, bookingPreSave_entryNo]; rfl
  have hbksn : bk.serialNo = sn := by rw [hbk, bookingPreSave_serialNo]; rfl
  have hc1id : c1.id = c.id := rfl
  rw [hstate]
  constructor
  · refine ⟨?_, hsids, ?_, ?_, ?_, ?_, ?_, ?_, ?_⟩
    · show ((db.customers.map (fun x => if x.id = c.id then c1 else x)).map
        (fun c => c.id)).Nodup
      rw [map_ids_ite (fun x => x.id) db.customers c.id c1 hc1id]
      exact hcids
    · show ((db.bookings ++ [bk]).map (fun b => b.id)).Nodup
      simp only [List.map_append, List.map_cons, List.map_nil]
      refine nodup_append_one _ _ hbids ?_
      rw [hbkid]
      intro hmem
      obtain ⟨b, hbm, hbeq⟩ := List.mem_map.mp hmem
      exact absurd hbeq (Nat.ne_of_lt (hbf b hbm))
    · show ((db.bookings ++ [bk]).map (fun b => b.entryNo)).Nodup
      simp only [List.map_append, List.map_cons, List.map_nil]
      refine nodup_append_one _ _ hbe ?_
      rw [hbken]
      exact entryNoTaken_false_not_mem db en henf
    · show ((db.bookings ++ [bk]).map (fun b => b.serialNo)).Nodup
      simp only [List.map_append, List.map_cons, List.map_nil]
      refine nodup_append_one _ _ hbs ?_
      rw [hbksn]
      exact serialNoTaken_false_not_mem db sn hsnf
    · intro x hx
      show x.id < db.nextId + 1
      obtain ⟨y, hy, hxy⟩ := List.mem_map.mp hx
      by_cases hyc : y.id = c.id
      · rw [if_pos hyc] at hxy
        rw [← hxy]
        omega
      · rw [if_neg hyc] at hxy
        rw [← hxy]
        have := hcf y hy
        omega
    · intro b hb
      show b.id < db.nextId + 1
      rcases List.mem_append.mp hb with hbl | hbr
      · have := hbf b hbl
        omega
      · rw [List.mem_singleton.mp hbr, hbkid]
        omega
    · intro b hb k hk
      show k < db.nextId + 1
      rcases List.mem_append.mp hb with hbl | hbr
      · have := hrf b hbl k hk
        omega
      · rw [List.mem_singleton.mp hbr] at hk
        rw [hbkcust] at hk
        injection hk with hk
        omega
    · intro b hb
      rcases List.mem_append.mp hb with hbl | hbr
      · exact hrn b hbl
      · rw [List.mem_singleton.mp hbr, hbkrent]
        have := customerValidationOk_rent req hv
        omega
  · intro x hx
    obtain ⟨y, hy, hxy⟩ := List.mem_map.mp hx
    by_cases hyc : y.id = c.id
    · have hyce : y = c :=
        eq_of_mem_nodup_id (fun x => x.id) db.customers hcids y c hy hcmem hyc
      rw [if_pos hyc] at hxy
      rw [← hxy]
      have hfilt : (db.bookings ++ [bk]).filter (fun b => b.customer = some c1.id) =
          (db.bookings.filter (fun b => b.customer = some c.id)) ++ [bk] := by
        rw [show (c1.id : Nat) = c.id from rfl, List.filter_append]
        congr 1
        simp [List.filter_cons, hbkcust]
      constructor
      · show c1.totalVisits =
          (((db.bookings ++ [bk]).filter (fun b => b.customer = some c1.id)).length : Int)
        rw [hfilt, List.length_append, List.length_singleton]
        have h1 := (hled c hcmem).1
        unfold bookingsOf at h1
        rw [show c1.totalVisits = c.totalVisits + 1 from rfl, h1]
        push_cast
        ring
      · show c1.totalRevenue =
          sumRent ((db.bookings ++ [bk]).filter (fun b => b.customer = some c1.id))
        rw [hfilt]
        unfold sumRent
        rw [sumBy_append]
        have h2 := (hled c hcmem).2
        unfold bookingsOf sumRent at h2
        rw [show c1.totalRevenue = c.totalRevenue + req.rent from rfl, h2,
            sumBy_cons, sumBy_nil, hbkrent]
        ring
    · rw [if_neg hyc] at hxy
      rw [← hxy]
      have hfilt : (db.bookings ++ [bk]).filter (fun b => b.customer = some y.id) =
          db.bookings.filter (fun b => b.customer = some y.id) := by
        rw [List.filter_append]
        have hz : [bk].filter (fun b => b.customer = some y.id) = [] := by
          have hne : ¬ (c.id = y.id) := fun h => hyc h.symm
          simp [List.filter_cons, hbkcust, hne]
        rw [hz, List.append_nil]
      constructor
      · show y.totalVisits =
          (((db.bookings ++ [bk]).filter (fun b => b.customer = some y.id)).length : Int)
        rw [hfilt]
        exact (hled y hy).1
      · show y.totalRevenue =
          sumRent ((db.bookings ++ [bk]).filter (fun b => b.customer = some y.id))
        rw [hfilt]
        exact (hled y hy).2

theorem createCustomer_new_preserves (sn en : String) (now : Int)
    (req : CustomerRequest) (db : DB)
    (hwf : WF db) (hled : ledgerOK db)
    (hv : customerValidationOk req = true)
    (hfind : db.customers.find?
      (fun x => x.mobile == req.mobile || x.aadhaar == formatAadhaar req.aadhaar) = none)
    (hok : (createCustomer sn en now req db).2 = .ok ()) :
    WF (createCustomer sn en now req db).1 ∧
    ledgerOK (createCustomer sn en now req db).1 := by
  obtain ⟨hstate, henf, hsnf, -⟩ := createCustomer_new_spec sn en now req db hv hfind hok
  obtain ⟨hcids, hsids, hbids, hbe, hbs, hcf, hbf, hrf, hrn⟩ := hwf
  set cnew := customerFromRequest req db.nextId with hcnew
  set bk := bookingPreSave (bookingFromCustomer sn en now req cnew (db.nextId + 1)) with hbk
  have hcnid : cnew.id = db.nextId := rfl
  have hcnv : cnew.totalVisits = 1 := rfl
  have hcnr : cnew.totalRevenue = req.rent := rfl
  have hbkid : bk.id = db.nextId + 1 := by rw [hbk, bookingPreSave_id]; rfl
  have hbkcust : bk.customer = some db.nextId := by rw [hbk, bookingPreSave_customer]; rfl
  have hbkrent : bk.rent = req.rent := by rw [hbk, bookingPreSave_rent]; rfl
  have hbken : bk.entryNo = en := by rw [hbk, bookingPreSave_entryNo]; rfl
  have hbksn : bk.serialNo = sn := by rw [hbk, bookingPreSave_serialNo]; rfl
  rw [hstate]
  constructor
  · refine ⟨?_, hsids, ?_, ?_, ?_, ?_, ?_, ?_, ?_⟩
    · show ((db.customers ++ [cnew]).map (fun c => c.id)).Nodup
      simp only [List.map_append, List.map_cons, List.map_nil]
      refine nodup_append_one _ _ hcids ?_
      rw [hcnid]
      intro hmem
      obtain ⟨y, hym, hyeq⟩ := List.mem_map.mp hmem
      exact absurd hyeq (Nat.ne_of_lt (hcf y hym))
    · show ((db.bookings ++ [bk]).map (fun b => b.id)).Nodup
      simp only [List.map_append, List.map_cons, List.map_nil]
      refine nodup_append_one _ _ hbids ?_
      rw [hbkid]
      intro hmem
      obtain ⟨b, hbm, hbeq⟩ := List.mem_map.mp hmem
      have := hbf b hbm
      omega
    · show ((db.bookings ++ [bk]).map (fun b => b.entryNo)).Nodup
      simp only [List.map_append, List.map_cons, List.map_nil]
      refine nodup_append_one _ _ hbe ?_
      rw [hbken]
      exact entryNoTaken_false_not_mem db en henf
    · show ((db.bookings ++ [bk]).map (fun b => b.serialNo)).Nodup
      simp only [List.map_append, List.map_cons, List.map_nil]
      refine nodup_append_one _ _ hbs ?_
      rw [hbksn]
      exact serialNoTaken_false_not_mem db sn hsnf
    · intro x hx
      show x.id < db.nextId + 2
      rcases List.mem_append.mp hx with hxl | hxr
      · have := hcf x hxl
        omega
      · rw [List.mem_singleton.mp hxr, hcnid]
        omega
    · intro b hb
      show b.id < db.nextId + 2
      rcases List.mem_append.mp hb with hbl | hbr
      · have := hbf b hbl
        omega
      · rw [List.mem_singleton.mp hbr, hbkid]
        omega
    · intro b hb k hk
      show k < db.nextId + 2
      rcases List.mem_append.mp hb with hbl | hbr
      · have := hrf b hbl k hk
        omega
      · rw [List.mem_singleton.mp hbr] at hk
        rw [hbkcust] at hk
        injection hk with hk
        omega
    · intro b hb
      rcases List.mem_append.mp hb with hbl | hbr
      · exact hrn b hbl
      · rw [List.mem_singleton.mp hbr, hbkrent]
        have := customerValidationOk_rent req hv
        omega
  · intro x hx
    rcases List.mem_append.mp hx with hxl | hxr
    · have hxlt : x.id < db.nextId := hcf x hxl
      have hfilt : (db.bookings ++ [bk]).filter (fun b => b.customer = some x.id) =
          db.bookings.filter (fun b => b.customer = some x.id) := by
        rw [List.filter_append]
        have hne : ¬ (some db.nextId = some x.id) := by
          intro h
          injection h with h
          omega
        have hz : [bk].filter (fun b => b.customer = some x.id) = [] := by
          simp [List.filter_cons, hbkcust, hne]
        rw [hz, List.append_nil]
      constructor
      · show x.totalVisits =
          (((db.bookings ++ [bk]).filter (fun b => b.customer = some x.id)).length : Int)
        rw [hfilt]
        exact (hled x hxl).1
      · show x.totalRevenue =
          sumRent ((db.bookings ++ [bk]).filter (fun b => b.customer = some x.id))
        rw [hfilt]
        exact (hled x hxl).2
    · rw [List.mem_singleton.mp hxr]
      have hfilt : (db.bookings ++ [bk]).filter (fun b => b.customer = some cnew.id) =
          [bk] := by
        rw [show (cnew.id : Nat) = db.nextId from rfl, List.filter_append]
        have hz1 : db.bookings.filter (fun b => b.customer = some db.nextId) = [] := by
          rw [List.filter_eq_nil]
          intro b hb
          simp only [decide_eq_true_eq]
          intro heq
          have := hrf b hb db.nextId heq
          omega
        have hz2 : [bk].filter (fun b => b.customer = some db.nextId) = [bk] := by
          simp [List.filter_cons, hbkcust]
        rw [hz1, hz2, List.nil_append]
      constructor
      · show cnew.totalVisits =
          (((db.bookings ++ [bk]).filter (fun b => b.customer = some cnew.id)).length : Int)
        rw [hfilt, hcnv]
        rfl
      · show cnew.totalRevenue =
          sumRent ((db.bookings ++ [bk]).filter (fun b => b.customer = some cnew.id))
        rw [hfilt, hcnr]
        unfold sumRent
        rw [sumBy_cons, sumBy_nil, hbkrent]
        ring

/-- The bookings list after `Booking.findByIdAndDelete` keeps its uniqueness
and freshness facts. -/
theorem bookings_filter_wf_facts (db : DB) (p : Booking → Bool)
    (hbids : (db.bookings.map (fun b => b.id)).Nodup)
    (hbe : (db.bookings.map (fun b => b.entryNo)).Nodup)
    (hbs : (db.bookings.map (fun b => b.serialNo)).Nodup)
    (hbf : ∀ b ∈ db.bookings, b.id < db.nextId)
    (hrf : ∀ b ∈ db.bookings, ∀ k, b.customer = some k → k < db.nextId)
    (hrn : ∀ b ∈ db.bookings, 0 ≤ b.rent) :
    ((db.bookings.filter p).map (fun b => b.id)).Nodup ∧
    ((db.bookings.filter p).map (fun b => b.entryNo)).Nodup ∧
    ((db.bookings.filter p).map (fun b => b.serialNo)).Nodup ∧
    (∀ b ∈ db.bookings.filter p, b.id < db.nextId) ∧
    (∀ b ∈ db.bookings.filter p, ∀ k, b.customer = some k → k < db.nextId) ∧
    (∀ b ∈ db.bookings.filter p, 0 ≤ b.rent) := by
  refine ⟨nodup_map_filter_nat _ _ _ hbids, nodup_map_filter _ _ _ hbe,
    nodup_map_filter _ _ _ hbs, ?_, ?_, ?_⟩
  · exact fun b hb => hbf b (List.mem_of_mem_filter hb)
  · exact fun b hb => hrf b (List.mem_of_mem_filter hb)
  · exact fun b hb => hrn b (List.mem_of_mem_filter hb)

theorem deleteCustomer_preserves (bid : Nat) (db : DB)
    (hwf : WF db) (hled : ledgerOK db)
    (hok : (deleteCustomer bid db).2 = .ok ()) :
    WF (deleteCustomer bid db).1 ∧ ledgerOK (deleteCustomer bid db).1 := by
  obtain ⟨hcids, hsids, hbids, hbe, hbs, hcf, hbf, hrf, hrn⟩ := hwf
  rcases hfind : db.bookings.find? (fun x => x.id = bid) with _ | b
  · exfalso
    simp [deleteCustomer, hfind] at hok
  · have hbmem : b ∈ db.bookings := List.mem_of_find?_eq_some hfind
    have hbid : b.id = bid := by simpa using List.find?_some hfind
    subst hbid
    rcases hbc : b.customer with _ | cid
    · -- the booking has no customer reference: no ledger change
      have hres : b.customer.bind
          (fun cid => db.customers.find? (fun c => c.id = cid)) = none := by
        rw [hbc]; rfl
      have hstate : (deleteCustomer b.id db).1 =
          { db with bookings := db.bookings.filter (fun x => x.id ≠ b.id) } := by
        simp [deleteCustomer, hfind, hres]
      rw [hstate]
      obtain ⟨w1, w2, w3, w4, w5, w6⟩ :=
        bookings_filter_wf_facts db (fun x => x.id ≠ b.id) hbids hbe hbs hbf hrf hrn
      refine ⟨⟨hcids, hsids, w1, w2, w3, hcf, w4, w5, w6⟩, ?_⟩
      intro y hy
      have hnb : ¬(decide (b.customer = some y.id) = true) := by
        simp [hbc]
      have hlen := length_filter_remove db.bookings hbids b hbmem
        (fun x => decide (x.customer = some y.id))
      have hsum := sumBy_filter_remove (fun x => x.rent) db.bookings hbids b hbmem
        (fun x => decide (x.customer = some y.id))
      rw [if_neg hnb] at hlen hsum
      constructor
      · show y.totalVisits =
          (((db.bookings.filter (fun x => x.id ≠ b.id)).filter
            (fun x => x.customer = some y.id)).length : Int)
        have h1 := (hled y hy).1
        unfold bookingsOf at h1
        omega
      · show y.totalRevenue =
          sumRent ((db.bookings.filter (fun x => x.id ≠ b.id)).filter
            (fun x => x.customer = some y.id))
        have h2 := (hled y hy).2
        unfold bookingsOf at h2
        unfold sumRent at h2 ⊢
        omega
    · -- the booking references customer `cid`
      rcases hcl : db.customers.find? (fun c => c.id = cid) with _ | c
      · -- dangling reference: lookup failed, no ledger change
        have hres : b.customer.bind
            (fun cid => db.customers.find? (fun c => c.id = cid)) = none := by
          rw [hbc, Option.some_bind, hcl]
        have hstate : (deleteCustomer b.id db).1 =
            { db with bookings := db.bookings.filter (fun x => x.id ≠ b.id) } := by
          simp [deleteCustomer, hfind, hres]
        rw [hstate]
        obtain ⟨w1, w2, w3, w4, w5, w6⟩ :=
          bookings_filter_wf_facts db (fun x => x.id ≠ b.id) hbids hbe hbs hbf hrf hrn
        refine ⟨⟨hcids, hsids, w1, w2, w3, hcf, w4, w5, w6⟩, ?_⟩
        intro y hy
        have hnone := List.find?_eq_none.mp hcl
        have hyne : ¬ (cid = y.id) := fun he =>
          absurd (by simpa using he.symm) (hnone y hy)
        have hnb : ¬(decide (b.customer = some y.id) = true) := by
          simp [hbc, hyne]
        have hlen := length_filter_remove db.bookings hbids b hbmem
          (fun x => decide (x.customer = some y.id))
        have hsum := sumBy_filter_remove (fun x => x.rent) db.bookings hbids b hbmem
          (fun x => decide (x.customer = some y.id))
        rw [if_neg hnb] at hlen hsum
        constructor
        · show y.totalVisits =
            (((db.bookings.filter (fun x => x.id ≠ b.id)).filter
              (fun x => x.customer = some y.id)).length : Int)
          have h1 := (hled y hy).1
          unfold bookingsOf at h1
          omega
        · show y.totalRevenue =
            sumRent ((db.bookings.filter (fun x => x.id ≠ b.id)).filter
              (fun x => x.customer = some y.id))
          have h2 := (hled y hy).2
          unfold bookingsOf at h2
          unfold sumRent at h2 ⊢
          omega
      · -- found: reverse the ledger
        have hcmem : c ∈ db.customers := List.mem_of_find?_eq_some hcl
        have hcid : c.id = cid := by simpa using List.find?_some hcl
        subst hcid
        have hbcc : b.customer = some c.id := hbc
        have hres : b.customer.bind
            (fun cid => db.customers.find? (fun x => x.id = cid)) = some c := by
          rw [hbc, Option.some_bind, hcl]
        have hbin : b ∈ bookingsOf db c.id := by
          unfold bookingsOf
          exact List.mem_filter.mpr ⟨hbmem, by simp [hbcc]⟩
        have hvpos : 0 < (bookingsOf db c.id).length :=
          List.length_pos.mpr (List.ne_nil_of_mem hbin)
        have hv := (hled c hcmem).1
        have hr := (hled c hcmem).2
        have hyb : decide (b.customer = some c.id) = true := by
          simp [hbcc]
        have hlen := length_filter_remove db.bookings hbids b hbmem
          (fun x => decide (x.customer = some c.id))
        have hsum := sumBy_filter_remove (fun x => x.rent) db.bookings hbids b hbmem
          (fun x => decide (x.customer = some c.id))
        rw [if_pos hyb] at hlen hsum
        have hrbnn : 0 ≤ b.rent := hrn b hbmem
        have hrge : b.rent ≤ sumRent (bookingsOf db c.id) := by
          unfold sumRent
          exact sumBy_ge_of_mem _ _ b hbin
            (fun x hx => hrn x (List.mem_of_mem_filter hx))
        have hremnn : 0 ≤ sumBy (fun x => x.rent)
            ((db.bookings.filter (fun x => x.id ≠ b.id)).filter
              (fun x => x.customer = some c.id)) :=
          sumBy_nonneg _ _ (fun x hx =>
            hrn x (List.mem_of_mem_filter (List.mem_of_mem_filter hx)))
        by_cases hz : max 0 (c.totalVisits - 1) = (0 : Int)
        · -- visits reach zero: the customer document is deleted too
          have hstate : (deleteCustomer b.id db).1 =
              { db with customers := db.customers.filter (fun x => x.id ≠ c.id),
                        bookings := db.bookings.filter (fun x => x.id ≠ b.id) } := by
            simp only [deleteCustomer, hfind, hres]
            rw [if_pos hz]
          rw [hstate]
          obtain ⟨w1, w2, w3, w4, w5, w6⟩ :=
            bookings_filter_wf_facts db (fun x => x.id ≠ b.id) hbids hbe hbs hbf hrf hrn
          refine ⟨⟨nodup_map_filter_nat _ _ _ hcids, hsids, w1, w2, w3,
            fun x hx => hcf x (List.mem_of_mem_filter hx), w4, w5, w6⟩, ?_⟩
          intro y hy
          have hymem : y ∈ db.customers := List.mem_of_mem_filter hy
          have hyne : y.id ≠ c.id := by
            have := (List.mem_filter.mp hy).2
            simpa using this
          have hnb2 : ¬(decide (b.customer = some y.id) = true) := by
            simp [hbcc]
            exact fun he => hyne he.symm
          have hlen2 := length_filter_remove db.bookings hbids b hbmem
            (fun x => decide (x.customer = some y.id))
          have hsum2 := sumBy_filter_remove (fun x => x.rent) db.bookings hbids b hbmem
            (fun x => decide (x.customer = some y.id))
          rw [if_neg hnb2] at hlen2 hsum2
          constructor
          · show y.totalVisits =
              (((db.bookings.filter (fun x => x.id ≠ b.id)).filter
                (fun x => x.customer = some y.id)).length : Int)
            have h1 := (hled y hymem).1
            unfold bookingsOf at h1
            omega
          · show y.totalRevenue =
              sumRent ((db.bookings.filter (fun x => x.id ≠ b.id)).filter
                (fun x => x.customer = some y.id))
            have h2 := (hled y hymem).2
            unfold bookingsOf at h2
            unfold sumRent at h2 ⊢
            omega
        · -- visits stay positive: the customer document is overwritten
          have hstate : (deleteCustomer b.id db).1 =
              { db with customers := (db.customers.map (fun x => if x.id = c.id then
                          { c with totalVisits := max 0 (c.totalVisits - 1),
                                   totalRevenue := max 0 (c.totalRevenue - b.rent) }
                        else x)),
                        bookings := db.bookings.filter (fun x => x.id ≠ b.id) } := by
            simp only [deleteCustomer, hfind, hres]
            rw [if_neg hz]
          rw [hstate]
          set c1 : Customer := { c with totalVisits := max 0 (c.totalVisits - 1),
                                        totalRevenue := max 0 (c.totalRevenue - b.rent) }
            with hc1
          obtain ⟨w1, w2, w3, w4, w5, w6⟩ :=
            bookings_filter_wf_facts db (fun x => x.id ≠ b.id) hbids hbe hbs hbf hrf hrn
          constructor
          · refine ⟨?_, hsids, w1, w2, w3, ?_, w4, w5, w6⟩
            · show ((db.customers.map (fun x => if x.id = c.id then c1 else x)).map
                (fun c => c.id)).Nodup
              rw [map_ids_ite (fun x => x.id) db.customers c.id c1 rfl]
              exact hcids
            · intro x hx
              show x.id < db.nextId
              obtain ⟨y, hy, hxy⟩ := List.mem_map.mp hx
              by_cases hyc : y.id = c.id
              · rw [if_pos hyc] at hxy
                rw [← hxy]
                show c.id < db.nextId
                exact hcf c hcmem
              · rw [if_neg hyc] at hxy
                rw [← hxy]
                exact hcf y hy
          · intro x hx
            obtain ⟨y, hy, hxy⟩ := List.mem_map.mp hx
            by_cases hyc : y.id = c.id
            · have hyce : y = c :=
                eq_of_mem_nodup_id (fun x => x.id) db.customers hcids y c hy hcmem hyc
              rw [if_pos hyc] at hxy
              rw [← hxy]
              constructor
              · show c1.totalVisits =
                  (((db.bookings.filter (fun x => x.id ≠ b.id)).filter
                    (fun x => x.customer = some c1.id)).length : Int)
                rw [show (c1.id : Nat) = c.id from rfl]
                rw [show c1.totalVisits = max 0 (c.totalVisits - 1) from rfl]
                unfold bookingsOf at hv
                omega
              · show c1.totalRevenue =
                  sumRent ((db.bookings.filter (fun x => x.id ≠ b.id)).filter
                    (fun x => x.customer = some c1.id))
                rw [show (c1.id : Nat) = c.id from rfl]
                rw [show c1.totalRevenue = max 0 (c.totalRevenue - b.rent) from rfl]
                unfold bookingsOf at hr hrge
                unfold sumRent at hr hrge ⊢
                omega
            · rw [if_neg hyc] at hxy
              rw [← hxy]
              have hnb2 : ¬(decide (b.customer = some y.id) = true) := by
                simp [hbcc]
                exact fun he => hyc he.symm
              constructor
              · show y.totalVisits =
                  (((db.bookings.filter (fun x => x.id ≠ b.id)).filter
                    (fun x => x.customer = some y.id)).length : Int)
                have hlen2 := length_filter_remove db.bookings hbids b hbmem
                  (fun x => decide (x.customer = some y.id))
                rw [if_neg hnb2] at hlen2
                have h1 := (hled y hy).1
                unfold bookingsOf at h1
                omega
              · show y.totalRevenue =
                  sumRent ((db.bookings.filter (fun x => x.id ≠ b.id)).filter
                    (fun x => x.customer = some y.id))
                have hsum2 := sumBy_filter_remove (fun x => x.rent) db.bookings hbids b hbmem
                  (fun x => decide (x.customer = some y.id))
                rw [if_neg hnb2] at hsum2
                have h2 := (hled y hy).2
                unfold bookingsOf at h2
                unfold sumRent at h2 ⊢
                omega

/-- A single successful guest-ledger operation preserves well-formedness and
the ledger invariant. -/
theorem applyGuestOp_preserves (op : GuestOp) (db : DB)
    (hwf : WF db) (hled : ledgerOK db)
    (hok : (applyGuestOp db op).2 = .ok ()) :
    WF (applyGuestOp db op).1 ∧ ledgerOK (applyGuestOp db op).1 := by
  cases op with
  | create sn en now req =>
      have hok' : (createCustomer sn en now req db).2 = .ok () := hok
      show WF (createCustomer sn en now req db).1 ∧
        ledgerOK (createCustomer sn en now req db).1
      cases hv : customerValidationOk req with
      | false =>
          exfalso
          simp [createCustomer, hv] at hok'
      | true =>
          rcases hfind : db.customers.find?
              (fun x => x.mobile == req.mobile ||
                x.aadhaar == formatAadhaar req.aadhaar) with _ | c
          · exact createCustomer_new_preserves sn en now req db hwf hled hv hfind hok'
          · exact createCustomer_found_preserves sn en now req db c hwf hled hv hfind hok'
  | delete bid => exact deleteCustomer_preserves bid db hwf hled hok

/-- A trace of successful guest operations preserves well-formedness and the
ledger invariant. -/
theorem guestOps_preserve (ops : List GuestOp) (db : DB)
    (hwf : WF db) (hled : ledgerOK db) (hok : traceOK db ops = true) :
    WF (runTrace db ops) ∧ ledgerOK (runTrace db ops) := by
  induction ops generalizing db with
  | nil => exact ⟨hwf, hled⟩
  | cons op rest ih =>
      rcases hstep : applyGuestOp db op with ⟨db1, res⟩
      unfold traceOK at hok
      rw [hstep] at hok
      cases res with
      | error e => simp at hok
      | ok u =>
          cases u
          simp only [] at hok
          have hokstep : (applyGuestOp db op).2 = .ok () := by rw [hstep]
          have hpre := applyGuestOp_preserves op db hwf hled hokstep
          rw [hstep] at hpre
          have hrw : runTrace db (op :: rest) = runTrace db1 rest := by
            show runTrace (applyGuestOp db op).1 rest = runTrace db1 rest
            rw [hstep]
          rw [hrw]
          exact ih db1 hpre.1 hpre.2 hok

/-- C2: for any sequence of successful guest-creation
(`POST /api/customers`) and guest-deletion (`DELETE /api/customers/:id`)
operations starting from an empty store, every surviving Guest Identity's
`totalVisits` equals the number of surviving bookings that reference it
(creations minus reversed deletions) and its `totalRevenue` equals the sum
of those bookings' `rent`; the `Math.max(0, ...)` floors never clamp on
these paths. -/
theorem ledger_matches_surviving_bookings (ops : List GuestOp)
    (hok : traceOK emptyDB ops = true) :
    ledgerOK (runTrace emptyDB ops) := by
  have hwf : WF emptyDB := by decide
  have hled : ledgerOK emptyDB := by decide
  exact (guestOps_preserve ops emptyDB hwf hled hok).2

/-- Witness for C2 at the concrete two-guest trace. -/
theorem ledger_matches_surviving_bookings_witness :
    traceOK emptyDB exTrace = true ∧ ledgerOK (runTrace emptyDB exTrace) :=
  ⟨by decide, ledger_matches_surviving_bookings exTrace (by decide)⟩

/-! ## Helper lemmas: the archive run's state evolution -/

theorem firstDedup_nodup (l : List Nat) : (firstDedup l).Nodup := by
  induction l with
  | nil => exact List.nodup_nil
  | cons k t ih =>
      unfold firstDedup
      refine List.nodup_cons.mpr ⟨?_, List.Nodup.filter _ ih⟩
      intro hk
      have := (List.mem_filter.mp hk).2
      simp at this

theorem mem_firstDedup (x : Nat) (l : List Nat) : x ∈ firstDedup l ↔ x ∈ l := by
  induction l with
  | nil => simp [firstDedup]
  | cons k t ih =>
      unfold firstDedup
      by_cases hx : x = k
      · subst hx; simp
      · simp [List.mem_cons, List.mem_filter, hx, ih]

theorem filter_filter_comm (l : List Booking) (p q : Booking → Bool) :
    (l.filter q).filter p = l.filter (fun b => p b && q b) := by
  induction l with
  | nil => rfl
  | cons a t ih =>
      cases hq : q a <;> cases hp : p a <;>
        simp [List.filter_cons, hq, hp, ih]

/-- Nothing selected by the retention predicate survives `deleteMany`, so a
repeat selection is empty. -/
theorem filter_old_of_kept (cutoff : Int) (l : List Booking) :
    (l.filter (fun b => !(b.createdAt < cutoff))).filter
      (fun b => b.createdAt < cutoff) = [] := by
  rw [List.filter_eq_nil_iff]
  intro a ha
  have h := (List.mem_filter.mp ha).2
  simp at h ⊢
  exact h

theorem archiveGroup_bookings (db0 : DB) (now : Int) (old : List Booking)
    (db : DB) (cid : Nat) :
    (archiveGroup db0 now old db cid).bookings = db.bookings := by
  unfold archiveGroup
  cases custLookup db0 cid with
  | none => rfl
  | some c => rfl

theorem archiveGroup_customer_ids (db0 : DB) (now : Int) (old : List Booking)
    (db : DB) (cid : Nat) :
    (archiveGroup db0 now old db cid).customers.map (fun c => c.id) =
      db.customers.map (fun c => c.id) := by
  unfold archiveGroup
  cases hc : custLookup db0 cid with
  | none => rfl
  | some c =>
      have hc' : db0.customers.find? (fun x => x.id = cid) = some c := hc
      have hcid : c.id = cid := by simpa using List.find?_some hc'
      show (db.customers.map (fun x => if x.id = cid then
          subtractedCustomer c (groupOf old cid) else x)).map (fun c => c.id) =
        db.customers.map (fun c => c.id)
      exact map_ids_ite (fun c => c.id) db.customers cid
        (subtractedCustomer c (groupOf old cid)) hcid

theorem processGroups_bookings (db0 : DB) (now : Int) (old : List Booking)
    (keys : List Nat) (db : DB) :
    (processGroups db0 now old keys db).bookings = db.bookings := by
  induction keys generalizing db with
  | nil => rfl
  | cons a t ih =>
      show (processGroups db0 now old t
        (archiveGroup db0 now old db a)).bookings = db.bookings
      rw [ih, archiveGroup_bookings]

theorem processGroups_customer_ids (db0 : DB) (now : Int) (old : List Booking)
    (keys : List Nat) (db : DB) :
    (processGroups db0 now old keys db).customers.map (fun c => c.id) =
      db.customers.map (fun c => c.id) := by
  induction keys generalizing db with
  | nil => rfl
  | cons a t ih =>
      show (processGroups db0 now old t
        (archiveGroup db0 now old db a)).customers.map (fun c => c.id) =
        db.customers.map (fun c => c.id)
      rw [ih, archiveGroup_customer_ids]

theorem archiveGroup_custLookup_ne (db0 : DB) (now : Int) (old : List Booking)
    (db : DB) (cid j : Nat) (hne : ¬ j = cid) :
    custLookup (archiveGroup db0 now old db cid) j = custLookup db j := by
  unfold archiveGroup
  cases hc : custLookup db0 cid with
  | none => rfl
  | some c =>
      have hc' : db0.customers.find? (fun x => x.id = cid) = some c := hc
      have hcid : c.id = cid := by simpa using List.find?_some hc'
      show (db.customers.map (fun x => if x.id = cid then
          subtractedCustomer c (groupOf old cid) else x)).find?
          (fun x => x.id = j) = db.customers.find? (fun x => x.id = j)
      exact find_map_ite_ne (fun c => c.id) db.customers cid
        (subtractedCustomer c (groupOf old cid)) hcid j hne

theorem archiveGroup_sumLookup_ne (db0 : DB) (now : Int) (old : List Booking)
    (db : DB) (cid j : Nat) (hne : ¬ j = cid) :
    sumLookup (archiveGroup db0 now old db cid) j = sumLookup db j := by
  unfold archiveGroup
  cases hc : custLookup db0 cid with
  | none => rfl
  | some c =>
      cases hs : sumLookup db cid with
      | some s =>
          have hs' : db.summaries.find? (fun x => x.customerId = cid) = some s := hs
          have hsid : s.customerId = cid := by simpa using List.find?_some hs'
          show (db.summaries.map (fun x => if x.customerId = cid then
              mergedSummary now cid c (groupOf old cid) (some s) else x)).find?
              (fun x => x.customerId = j) =
            db.summaries.find? (fun x => x.customerId = j)
          exact find_map_ite_ne (fun s => s.customerId) db.summaries cid
            (mergedSummary now cid c (groupOf old cid) (some s)) hsid j hne
      | none =>
          show (db.summaries ++ [mergedSummary now cid c (groupOf old cid) none]).find?
              (fun x => x.customerId = j) =
            db.summaries.find? (fun x => x.customerId = j)
          rw [find_append_single (fun s => s.customerId) db.summaries
            (mergedSummary now cid c (groupOf old cid) none) j]
          have hnc : ¬ ((mergedSummary now cid c (groupOf old cid) none).customerId = j) := by
            show ¬ (cid = j)
            exact fun h => hne h.symm
          rw [if_neg hnc]
          cases db.summaries.find? (fun x => x.customerId = j) <;> rfl

theorem archiveGroup_custLookup_self (db0 : DB) (now : Int) (old : List Booking)
    (db : DB) (k : Nat) (c : Customer)
    (hc0 : custLookup db0 k = some c)
    (hcs : (custLookup db k).isSome = true) :
    custLookup (archiveGroup db0 now old db k) k =
      some (subtractedCustomer c (groupOf old k)) := by
  unfold archiveGroup
  rw [hc0]
  have hc' : db0.customers.find? (fun x => x.id = k) = some c := hc0
  have hcid : c.id = k := by simpa using List.find?_some hc'
  show (db.customers.map (fun x => if x.id = k then
      subtractedCustomer c (groupOf old k) else x)).find? (fun x => x.id = k) =
    some (subtractedCustomer c (groupOf old k))
  exact find_map_ite_self (fun c => c.id) db.customers k
    (subtractedCustomer c (groupOf old k)) hcid
    (show (db.customers.find? (fun x => x.id = k)).isSome = true from hcs)

theorem archiveGroup_sumLookup_self (db0 : DB) (now : Int) (old : List Booking)
    (db : DB) (k : Nat) (c : Customer)
    (hc0 : custLookup db0 k = some c) :
    sumLookup (archiveGroup db0 now old db k) k =
      some (mergedSummary now k c (groupOf old k) (sumLookup db k)) := by
  unfold archiveGroup
  rw [hc0]
  cases hs : sumLookup db k with
  | some s =>
      have hs' : db.summaries.find? (fun x => x.customerId = k) = some s := hs
      have hsid : s.customerId = k := by simpa using List.find?_some hs'
      show (db.summaries.map (fun x => if x.customerId = k then
          mergedSummary now k c (groupOf old k) (some s) else x)).find?
          (fun x => x.customerId = k) =
        some (mergedSummary now k c (groupOf old k) (some s))
      exact find_map_ite_self (fun s => s.customerId) db.summaries k
        (mergedSummary now k c (groupOf old k) (some s)) hsid (by rw [hs']; rfl)
  | none =>
      show (db.summaries ++ [mergedSummary now k c (groupOf old k) none]).find?
          (fun x => x.customerId = k) =
        some (mergedSummary now k c (groupOf old k) none)
      rw [find_append_single (fun s => s.customerId) db.summaries
        (mergedSummary now k c (groupOf old k) none) k]
      have hfn : db.summaries.find? (fun x => x.customerId = k) = none := hs
      rw [hfn]
      exact if_pos rfl

theorem archiveGroup_custIsSome (db0 : DB) (now : Int) (old : List Booking)
    (db : DB) (cid j : Nat) :
    (custLookup (archiveGroup db0 now old db cid) j).isSome =
      (custLookup db j).isSome := by
  unfold custLookup
  exact find_isSome_congr (fun c : Customer => c.id)
    (archiveGroup db0 now old db cid).customers db.customers
    (archiveGroup_customer_ids db0 now old db cid) j

theorem processGroups_lookup_notmem (db0 : DB) (now : Int) (old : List Booking)
    (keys : List Nat) (db : DB) (j : Nat) (hj : j ∉ keys) :
    custLookup (processGroups db0 now old keys db) j = custLookup db j ∧
    sumLookup (processGroups db0 now old keys db) j = sumLookup db j := by
  induction keys generalizing db with
  | nil => exact ⟨rfl, rfl⟩
  | cons a t ih =>
      have hja : ¬ j = a := by
        intro h
        exact hj (h ▸ List.mem_cons_self a t)
      have hjt : j ∉ t := fun h => hj (List.mem_cons_of_mem a h)
      have hstep1 := archiveGroup_custLookup_ne db0 now old db a j hja
      have hstep2 := archiveGroup_sumLookup_ne db0 now old db a j hja
      have hrest := ih (archiveGroup db0 now old db a) hjt
      exact ⟨hrest.1.trans hstep1, hrest.2.trans hstep2⟩

theorem processGroups_lookup (db0 : DB) (now : Int) (old : List Booking)
    (keys : List Nat) (db : DB) (k : Nat) (c : Customer)
    (hnd : keys.Nodup) (hmem : k ∈ keys)
    (hc0 : custLookup db0 k = some c)
    (hcs : (custLookup db k).isSome = true) :
    custLookup (processGroups db0 now old keys db) k =
      some (subtractedCustomer c (groupOf old k)) ∧
    sumLookup (processGroups db0 now old keys db) k =
      some (mergedSummary now k c (groupOf old k) (sumLookup db k)) := by
  induction keys generalizing db with
  | nil => cases hmem
  | cons a t ih =>
      have hnd' : t.Nodup := (List.nodup_cons.mp hnd).2
      by_cases hak : a = k
      · subst hak
        have hknott : a ∉ t := (List.nodup_cons.mp hnd).1
        have hstep1 := archiveGroup_custLookup_self db0 now old db a c hc0 hcs
        have hstep2 := archiveGroup_sumLookup_self db0 now old db a c hc0
        have hrest := processGroups_lookup_notmem db0 now old t
          (archiveGroup db0 now old db a) a hknott
        exact ⟨hrest.1.trans hstep1, hrest.2.trans hstep2⟩
      · have hkt : k ∈ t := by
          cases List.mem_cons.mp hmem with
          | inl h => exact absurd h.symm hak
          | inr h => exact h
        have hne : ¬ k = a := fun h => hak h.symm
        have hsl := archiveGroup_sumLookup_ne db0 now old db a k hne
        have hcs' : (custLookup (archiveGroup db0 now old db a) k).isSome = true := by
          rw [archiveGroup_custIsSome]
          exact hcs
        have hrec := ih (archiveGroup db0 now old db a) hnd' hkt hcs'
        rw [hsl] at hrec
        exact hrec

theorem archiveOldData_noOld (cutoff now : Int) (db : DB)
    (h1 : (archivedOf db cutoff).isEmpty = true) :
    archiveOldData cutoff now db = (db, .noOld) := by
  simp only [archiveOldData]
  rw [if_pos h1]

theorem archiveOldData_typeErr (cutoff now : Int) (db : DB)
    (h1 : (archivedOf db cutoff).isEmpty = false)
    (h2 : (archivedOf db cutoff).any (fun b => (resolveCustomer db b).isNone) = true) :
    archiveOldData cutoff now db = (db, .typeError) := by
  simp only [archiveOldData]
  rw [if_neg (by simp [h1]), if_pos h2]

theorem archiveOldData_main (cutoff now : Int) (db : DB)
    (h1 : (archivedOf db cutoff).isEmpty = false)
    (h2 : (archivedOf db cutoff).any (fun b => (resolveCustomer db b).isNone) = false) :
    archiveOldData cutoff now db =
      ({ processGroups db now (archivedOf db cutoff)
           (firstDedup ((archivedOf db cutoff).filterMap (fun b => b.customer))) db with
         bookings :=
           (processGroups db now (archivedOf db cutoff)
             (firstDedup ((archivedOf db cutoff).filterMap (fun b => b.customer)))
             db).bookings.filter (fun b => !(b.createdAt < cutoff)) },
       .referenceError) := by
  simp only [archiveOldData]
  rw [if_neg (by simp [h1]), if_neg (by simp [h2])]

theorem histVisits_eq_of_lookup (db : DB) (k : Nat) (s : CustomerSummary)
    (h : sumLookup db k = some s) : histVisits db k = s.totalHistoricVisits := by
  unfold histVisits
  rw [h]

theorem histRevenue_eq_of_lookup (db : DB) (k : Nat) (s : CustomerSummary)
    (h : sumLookup db k = some s) : histRevenue db k = s.totalHistoricRevenue := by
  unfold histRevenue
  rw [h]

/-- The merged summary's historic visit count adds the archived group's size
to whatever history existed (or starts at it when no summary existed). -/
theorem mergedSummary_visits (db : DB) (now : Int) (k : Nat) (c : Customer)
    (grp : List Booking) :
    (mergedSummary now k c grp (sumLookup db k)).totalHistoricVisits =
      histVisits db k + (grp.length : Int) := by
  unfold histVisits
  cases sumLookup db k with
  | some s => rfl
  | none =>
      show (grp.length : Int) = 0 + (grp.length : Int)
      omega

/-- The merged summary's historic revenue adds the archived group's
`totalAmount` sum. -/
theorem mergedSummary_revenue (db : DB) (now : Int) (k : Nat) (c : Customer)
    (grp : List Booking) :
    (mergedSummary now k c grp (sumLookup db k)).totalHistoricRevenue =
      histRevenue db k + sumAmt grp := by
  unfold histRevenue
  cases sumLookup db k with
  | some s => rfl
  | none =>
      show sumAmt grp = 0 + sumAmt grp
      omega

/-- C4: when an `archiveOldData` run completes its main branch (selection
nonempty, every populated reference resolvable, ending in the sweep's
`ReferenceError`), an immediately following run with the same retention
cutoff selects nothing, returns through the `No old bookings found to
archive` early exit, and leaves the whole state — in particular every
Historic Summary — unchanged. -/
theorem archive_idempotent (cutoff now now2 : Int) (db : DB)
    (hres : (archiveOldData cutoff now db).2 = .referenceError) :
    archiveOldData cutoff now2 (archiveOldData cutoff now db).1 =
      ((archiveOldData cutoff now db).1, .noOld) := by
  cases h1 : (archivedOf db cutoff).isEmpty with
  | true =>
      rw [archiveOldData_noOld cutoff now db h1] at hres
      exact absurd hres (by simp)
  | false =>
      cases h2 : (archivedOf db cutoff).any (fun b => (resolveCustomer db b).isNone) with
      | true =>
          rw [archiveOldData_typeErr cutoff now db h1 h2] at hres
          exact absurd hres (by simp)
      | false =>
          have hchar := archiveOldData_main cutoff now db h1 h2
          have hb : (archiveOldData cutoff now db).1.bookings =
              db.bookings.filter (fun b => !(b.createdAt < cutoff)) := by
            rw [hchar]
            exact congrArg (List.filter (fun b => !(b.createdAt < cutoff)))
              (processGroups_bookings db now (archivedOf db cutoff)
                (firstDedup ((archivedOf db cutoff).filterMap (fun b => b.customer))) db)
          apply archiveOldData_noOld
          show ((archiveOldData cutoff now db).1.bookings.filter
            (fun b => b.createdAt < cutoff)).isEmpty = true
          rw [hb, filter_old_of_kept]
          rfl

/-- Witness for C4: on the one-guest fixture the first horizon-1 run ends in
the sweep's `ReferenceError` and the second run is a no-op early exit. -/
theorem archive_idempotent_witness :
    (archiveOldData 1 5 exArcDB).2 = .referenceError ∧
    archiveOldData 1 7 (archiveOldData 1 5 exArcDB).1 =
      ((archiveOldData 1 5 exArcDB).1, .noOld) :=
  ⟨by decide, archive_idempotent 1 5 7 exArcDB (by decide)⟩

/-- C9: whenever the archive script gets past selection and grouping
(selection nonempty, every populated customer reference resolvable), the
run ends with the sweep step's `ReferenceError` — its `Customer.find` reads
a name the module never requires — yet only after the summary merges, the
live subtractions and the `deleteMany` have been awaited: the selected
bookings are gone and no Customer document was deleted. -/
theorem archive_sweep_always_raises (cutoff now : Int) (db : DB)
    (h1 : (archivedOf db cutoff).isEmpty = false)
    (h2 : (archivedOf db cutoff).any (fun b => (resolveCustomer db b).isNone) = false) :
    (archiveOldData cutoff now db).2 = .referenceError ∧
    (archiveOldData cutoff now db).1.bookings =
      db.bookings.filter (fun b => !(b.createdAt < cutoff)) ∧
    (archiveOldData cutoff now db).1.customers.map (fun c => c.id) =
      db.customers.map (fun c => c.id) := by
  have hchar := archiveOldData_main cutoff now db h1 h2
  refine ⟨by rw [hchar], ?_, ?_⟩
  · rw [hchar]
    exact congrArg (List.filter (fun b => !(b.createdAt < cutoff)))
      (processGroups_bookings db now (archivedOf db cutoff)
        (firstDedup ((archivedOf db cutoff).filterMap (fun b => b.customer))) db)
  · rw [hchar]
    exact processGroups_customer_ids db now (archivedOf db cutoff)
      (firstDedup ((archivedOf db cutoff).filterMap (fun b => b.customer))) db

/-- Witness for C9 at the one-guest fixture with horizon 1. -/
theorem archive_sweep_always_raises_witness :
    (archivedOf exArcDB 1).isEmpty = false ∧
    (archivedOf exArcDB 1).any (fun b => (resolveCustomer exArcDB b).isNone) = false ∧
    ((archiveOldData 1 1000 exArcDB).2 = .referenceError ∧
     (archiveOldData 1 1000 exArcDB).1.bookings =
       exArcDB.bookings.filter (fun b => !(b.createdAt < 1)) ∧
     (archiveOldData 1 1000 exArcDB).1.customers.map (fun c => c.id) =
       exArcDB.customers.map (fun c => c.id)) :=
  ⟨by decide, by decide, archive_sweep_always_raises 1 1000 exArcDB (by decide) (by decide)⟩

/-- C1 (amended): an archive run that performs its work (nonempty
selection, resolvable references) keeps every guest's `FullTotals` visits
equal to what they were — the live count drops by the archived group's size
while the Historic Summary gains exactly that size, so visits still count
every booking ever created minus those explicitly deleted — and conserves
`FullTotals` revenue under the proviso that the guest's live
`totalRevenue` is at least the `totalAmount` sum being archived (otherwise
the `Math.max` floor clamps); the surviving live bookings plus the archived
group partition the guest's previous live bookings. -/
theorem archive_preserves_full_totals (cutoff now : Int) (db : DB) (c : Customer)
    (hwf : WF db) (hled : ledgerOK db) (hcmem : c ∈ db.customers)
    (h1 : (archivedOf db cutoff).isEmpty = false)
    (h2 : (archivedOf db cutoff).any (fun b => (resolveCustomer db b).isNone) = false)
    (hclamp : sumAmt (groupOf (archivedOf db cutoff) c.id) ≤ c.totalRevenue) :
    ∃ c', custLookup (archiveOldData cutoff now db).1 c.id = some c' ∧
      fullVisits (archiveOldData cutoff now db).1 c' = fullVisits db c ∧
      fullRevenue (archiveOldData cutoff now db).1 c' = fullRevenue db c ∧
      ((bookingsOf (archiveOldData cutoff now db).1 c.id).length : Int) +
        ((groupOf (archivedOf db cutoff) c.id).length : Int) =
        ((bookingsOf db c.id).length : Int) := by
  obtain ⟨hcids, hsids, hbids, hbe, hbs, hcf, hbf, hrf, hrn⟩ := hwf
  have hchar := archiveOldData_main cutoff now db h1 h2
  set old := archivedOf db cutoff with hold
  set keys := firstDedup (old.filterMap (fun b => b.customer)) with hkeys
  set db1 := processGroups db now old keys db with hdb1
  have hstate : (archiveOldData cutoff now db).1 =
      { db1 with bookings := db1.bookings.filter (fun b => !(b.createdAt < cutoff)) } := by
    rw [hchar]
  have hbooks : (archiveOldData cutoff now db).1.bookings =
      db.bookings.filter (fun b => !(b.createdAt < cutoff)) := by
    rw [hstate]
    show db1.bookings.filter (fun b => !(b.createdAt < cutoff)) = _
    rw [hdb1, processGroups_bookings]
  have hclk : custLookup db c.id = some c :=
    find_mem_nodup (fun x : Customer => x.id) db.customers hcids c hcmem
  have hsplit := length_filter_split db.bookings
    (fun b => decide (b.customer = some c.id)) (fun b => decide (b.createdAt < cutoff))
  simp only [] at hsplit
  have hgs : groupOf old c.id = db.bookings.filter
      (fun b => decide (b.customer = some c.id) && decide (b.createdAt < cutoff)) := by
    rw [hold]
    exact filter_filter_comm db.bookings
      (fun b => decide (b.customer = some c.id)) (fun b => decide (b.createdAt < cutoff))
  have hbo : bookingsOf (archiveOldData cutoff now db).1 c.id = db.bookings.filter
      (fun b => decide (b.customer = some c.id) && !decide (b.createdAt < cutoff)) := by
    show (archiveOldData cutoff now db).1.bookings.filter
      (fun b => decide (b.customer = some c.id)) = _
    rw [hbooks]
    exact filter_filter_comm db.bookings
      (fun b => decide (b.customer = some c.id)) (fun b => !decide (b.createdAt < cutoff))
  have hcount : ((bookingsOf (archiveOldData cutoff now db).1 c.id).length : Int) +
      ((groupOf old c.id).length : Int) = ((bookingsOf db c.id).length : Int) := by
    rw [hbo, hgs]
    have hb2 : bookingsOf db c.id =
        db.bookings.filter (fun b => decide (b.customer = some c.id)) := rfl
    rw [hb2]
    omega
  by_cases hk : c.id ∈ keys
  · -- the guest owns archived bookings: subtracted live doc, merged summary
    have hknd : keys.Nodup := by
      rw [hkeys]
      exact firstDedup_nodup _
    have hlkp := processGroups_lookup db now old keys db c.id c hknd hk hclk
      (by rw [hclk]; rfl)
    have hs1 : sumLookup (archiveOldData cutoff now db).1 c.id =
        some (mergedSummary now c.id c (groupOf old c.id) (sumLookup db c.id)) := by
      rw [hstate]
      exact hlkp.2
    refine ⟨subtractedCustomer c (groupOf old c.id), ?_, ?_, ?_, hcount⟩
    · rw [hstate]
      exact hlkp.1
    · have hhv := histVisits_eq_of_lookup _ _ _ hs1
      have hmv := mergedSummary_visits db now c.id c (groupOf old c.id)
      have hlv := (hled c hcmem).1
      show (subtractedCustomer c (groupOf old c.id)).totalVisits +
        histVisits (archiveOldData cutoff now db).1 c.id =
        c.totalVisits + histVisits db c.id
      rw [hhv, hmv]
      have hsv : (subtractedCustomer c (groupOf old c.id)).totalVisits =
          max 0 (c.totalVisits - ((groupOf old c.id).length : Int)) := rfl
      rw [hsv]
      omega
    · have hhr := histRevenue_eq_of_lookup _ _ _ hs1
      have hmr := mergedSummary_revenue db now c.id c (groupOf old c.id)
      show (subtractedCustomer c (groupOf old c.id)).totalRevenue +
        histRevenue (archiveOldData cutoff now db).1 c.id =
        c.totalRevenue + histRevenue db c.id
      rw [hhr, hmr]
      have hsr : (subtractedCustomer c (groupOf old c.id)).totalRevenue =
          max 0 (c.totalRevenue - sumAmt (groupOf old c.id)) := rfl
      rw [hsr]
      omega
  · -- no archived booking references the guest: documents untouched
    have hgrpnil : groupOf old c.id = [] := by
      unfold groupOf
      rw [List.filter_eq_nil_iff]
      intro b hb hbc
      apply hk
      rw [hkeys, mem_firstDedup]
      exact List.mem_filterMap.mpr ⟨b, hb, by simpa using hbc⟩
    have hnm := processGroups_lookup_notmem db now old keys db c.id hk
    have hsl : sumLookup (archiveOldData cutoff now db).1 c.id = sumLookup db c.id := by
      rw [hstate]
      exact hnm.2
    refine ⟨c, ?_, ?_, ?_, hcount⟩
    · rw [hstate]
      exact hnm.1.trans hclk
    · show c.totalVisits + histVisits (archiveOldData cutoff now db).1 c.id =
        c.totalVisits + histVisits db c.id
      have hh : histVisits (archiveOldData cutoff now db).1 c.id = histVisits db c.id := by
        unfold histVisits
        rw [hsl]
      rw [hh]
    · show c.totalRevenue + histRevenue (archiveOldData cutoff now db).1 c.id =
        c.totalRevenue + histRevenue db c.id
      have hh : histRevenue (archiveOldData cutoff now db).1 c.id = histRevenue db c.id := by
        unfold histRevenue
        rw [hsl]
      rw [hh]

/-- Witness for C1 at the one-guest fixture whose live revenue (100) covers
the archived `totalAmount` (100), so the proviso holds. -/
theorem archive_preserves_full_totals_witness :
    WF exArcDB ∧ ledgerOK exArcDB ∧ exArcCust ∈ exArcDB.customers ∧
    (archivedOf exArcDB 1).isEmpty = false ∧
    (archivedOf exArcDB 1).any (fun b => (resolveCustomer exArcDB b).isNone) = false ∧
    sumAmt (groupOf (archivedOf exArcDB 1) exArcCust.id) ≤ exArcCust.totalRevenue ∧
    (∃ c', custLookup (archiveOldData 1 1000 exArcDB).1 exArcCust.id = some c' ∧
      fullVisits (archiveOldData 1 1000 exArcDB).1 c' = fullVisits exArcDB exArcCust ∧
      fullRevenue (archiveOldData 1 1000 exArcDB).1 c' = fullRevenue exArcDB exArcCust ∧
      ((bookingsOf (archiveOldData 1 1000 exArcDB).1 exArcCust.id).length : Int) +
        ((groupOf (archivedOf exArcDB 1) exArcCust.id).length : Int) =
        ((bookingsOf exArcDB exArcCust.id).length : Int)) :=
  ⟨by decide, by decide, by decide, by decide, by decide, by decide,
    archive_preserves_full_totals 1 1000 exArcDB exArcCust (by decide) (by decide)
      (by decide) (by decide) (by decide) (by decide)⟩

end Hotel
